import Mathlib

/-
Shallow embedding of util.marine-cadastre.processor
(src/processors/transit_counts_processor.py, src/processors/vessel_tracks_processor.py).

External capabilities (geopandas / rasterio / pandas / GDAL) are modelled at their
interface boundary:
  * attribute values are scalars (numbers, strings, or datetime-typed values);
    Python float()/int() on a string is modelled by integer-literal parsing, and
    raises (returns an error) on any non-numeric string;
  * geometries are opaque tokens for vector data and rational-coordinate points
    for raster samples; CRS reprojection (to_crs) is modelled as an external map
    that tags a geometry with the source CRS it was reprojected from, and is the
    identity when source and target CRS coincide;
  * the filesystem of .geojson artifacts is an association list from output path
    to the feature list written there; gdf.to_file / json.dump write the features,
    Path.exists is association-list membership;
  * rasterio.open failing (unreadable file) and the gdal_translate CSV export
    (its rows, or the absence of X/Y columns) are explicit fields of the raster
    dataset model, since they are inputs of the program, not computed by it.
-/

/-- Calendar date, the payload of a pandas datetime value (time-of-day is not
needed by any processing decision in the source). -/
structure DateT where
  year : Nat
  month : Nat
  day : Nat
deriving DecidableEq

/-- Zero padding to two digits, as in strftime "%m" / "%d". -/
def pad2 (n : Nat) : String :=
  if n < 10 then "0" ++ toString n else toString n

/-- strftime("%Y-%m-%d") of a datetime value (transit_counts_processor.py line 144,
vessel_tracks_processor.py line 93). -/
def dateKey (t : DateT) : String :=
  toString t.year ++ "-" ++ pad2 t.month ++ "-" ++ pad2 t.day

/-- Timestamp.isoformat() of a (midnight) datetime value
(vessel_tracks_processor.py line 129). -/
def isoformat (t : DateT) : String :=
  dateKey t ++ "T00:00:00"

/-- Scalar attribute value of a source record. -/
inductive PyVal where
  | vnum (n : Int)
  | vstr (s : String)
  | vtime (t : DateT)
deriving DecidableEq

/-- Numeric value of a digit list, most significant first. -/
def digitsToNat (l : List Char) : Nat :=
  l.foldl (fun acc c => acc * 10 + (c.toNat - 48)) 0

/-- Integer-literal parsing of a string (optional minus sign, then digits),
the model of Python's numeric-string parsing in float()/int(). -/
def parseIntStr (s : String) : Option Int :=
  match s.data with
  | [] => none
  | '-' :: rest =>
      if rest ≠ [] && rest.all Char.isDigit then
        some (-(digitsToNat rest : Int))
      else none
  | l =>
      if l.all Char.isDigit then some (digitsToNat l : Int) else none

/-- Python str() of a scalar: never fails. -/
def pyStr : PyVal → String
  | .vnum n => toString n
  | .vstr s => s
  | .vtime t => isoformat t

/-- Python float() of a scalar: numbers pass through, numeric string literals
parse, any other string (or a datetime) raises. -/
def pyFloat : PyVal → Except String Int
  | .vnum n => .ok n
  | .vstr s =>
      match parseIntStr s with
      | some n => .ok n
      | none => .error ("could not convert string to float: " ++ s)
  | .vtime _ => .error "float() argument must be a number"

/-- Python int() of a scalar: same success/failure shape as float() at the
granularity this model needs. -/
def pyInt : PyVal → Except String Int
  | .vnum n => .ok n
  | .vstr s =>
      match parseIntStr s with
      | some n => .ok n
      | none => .error ("invalid literal for int(): " ++ s)
  | .vtime _ => .error "int() argument must be a number"

/-- Association-list lookup (first binding wins). -/
def alook {α : Type} : List (String × α) → String → Option α
  | [], _ => none
  | kv :: rest, k => if kv.1 = k then some kv.2 else alook rest k

/-- Association-list insert with Python-dict semantics: an existing key is
overwritten in place, a new key is appended at the end. -/
def alins {α : Type} : List (String × α) → String → α → List (String × α)
  | [], k, v => [(k, v)]
  | kv :: rest, k, v =>
      if kv.1 = k then (k, v) :: rest else kv :: alins rest k v

/-- Property mapping of a record or feature. -/
abbrev Dict := List (String × PyVal)

/-- Python dict literal update: entries of the second dict inserted left to
right into the first (`{**a, **b}`), later keys overwriting earlier ones. -/
def dictUnion (d e : Dict) : Dict :=
  e.foldl (fun acc kv => alins acc kv.1 kv.2) d

/-- row.get(key, default) on a record's attributes. -/
def getAttr (d : Dict) (k : String) (dflt : PyVal) : PyVal :=
  (alook d k).getD dflt

/-- Output geometry: an opaque vector-geometry token (possibly tagged as
reprojected from a source CRS by the external to_crs capability) or a raster
sample point with rational coordinates. -/
inductive Geom where
  | tok (s : String)
  | reproj (crs : String) (s : String)
  | pt (x y : Rat)
  | reprojPt (crs : String) (x y : Rat)
deriving DecidableEq

/-- A GeoJSON feature: geometry plus properties. -/
structure Feat where
  geom : Geom
  props : Dict
deriving DecidableEq

/-- The output directory: path of a written .geojson artifact mapped to the
feature list it holds. -/
abbrev FS := List (String × List Feat)

/-- Path(p).exists() for an output artifact. -/
def fsExists (fs : FS) (p : String) : Bool :=
  (alook fs p).isSome

/-- One vector source record: a geometry plus attribute mapping. -/
structure VRecord where
  geom : String
  attrs : Dict
deriving DecidableEq

/-- A shapefile as read by geopandas: declared CRS (None possible), column
names, and the records. -/
structure ShpData where
  crs : Option String
  columns : List String
  records : List VRecord
deriving DecidableEq

/-- Four leading digits of a character list, when present
(the regex `\d{4}` anchored at this position). -/
def fourDigitsAt : List Char → Option String
  | a :: b :: c :: d :: _ =>
      if a.isDigit && b.isDigit && c.isDigit && d.isDigit then
        some (String.mk [a, b, c, d])
      else none
  | _ => none

/-- re.search(r"(\d{4})", ...): leftmost position with four consecutive digits. -/
def scanFourDigits : List Char → Option String
  | [] => none
  | x :: xs =>
      match fourDigitsAt (x :: xs) with
      | some r => some r
      | none => scanFourDigits xs

/-- extract_date_from_filename (transit_counts_processor.py lines 306-314,
vessel_tracks_processor.py lines 157-165). -/
def extract_date_from_filename (stem : String) : Option String :=
  scanFourDigits stem.data

example : extract_date_from_filename "AISVTC2023Atlantic" = some "2023" := by decide
example : extract_date_from_filename "nodigits" = none := by decide
example : extract_date_from_filename "x12345y" = some "1234" := by decide

/-- pd.to_datetime on one attribute value: datetime-typed values pass through;
parsing of string/number representations is an external pandas capability not
modelled (such values fail here). -/
def toDatetime : PyVal → Except String DateT
  | .vtime t => .ok t
  | .vnum _ => .error "to_datetime: unparsable value"
  | .vstr s => .error ("to_datetime: unparsable value " ++ s)

/-- pd.to_datetime applied to the whole temporal column (before any grouping):
the first unparsable value aborts the file. -/
def parseTimes (timeField : String) (recs : List VRecord) :
    Except String (List (DateT × VRecord)) :=
  recs.mapM (fun r =>
    (toDatetime (getAttr r.attrs timeField (.vstr ""))).map (fun t => (t, r)))

/-- Lexicographic comparison of character lists (by code point). -/
def strLtB : List Char → List Char → Bool
  | [], [] => false
  | [], _ :: _ => true
  | _ :: _, [] => false
  | a :: as, b :: bs =>
      if a.toNat < b.toNat then true
      else if b.toNat < a.toNat then false
      else strLtB as bs

/-- Insert a string into a sorted list (ascending). -/
def insortStr (x : String) : List String → List String
  | [] => [x]
  | y :: ys => if strLtB x.data y.data then x :: y :: ys else y :: insortStr x ys

/-- Sort strings ascending, as pandas groupby sorts its group keys. -/
def sortStr (l : List String) : List String :=
  l.foldr insortStr []

/-- Deduplicate keeping first occurrences. -/
def dedupFirst (l : List String) : List String :=
  l.foldl (fun acc k => if k ∈ acc then acc else acc ++ [k]) []

/-- Group keys of gdf.groupby(gdf[time_field].dt.strftime("%Y-%m-%d")):
the distinct formatted dates, in ascending order. -/
def groupKeys (recs : List (DateT × VRecord)) : List String :=
  sortStr (dedupFirst (recs.map (fun p => dateKey p.1)))

/-- Records of one date group, in source order. -/
def groupOf (k : String) (recs : List (DateT × VRecord)) : List (DateT × VRecord) :=
  recs.filter (fun p => dateKey p.1 = k)

/-- CRS normalization of one vector geometry (the to_crs / set_crs block):
declared WGS84 or undeclared leaves the geometry unchanged (undeclared is
assumed WGS84 with a warning); any other declared CRS is reprojected by the
external capability, recorded by tagging the token. -/
def normRecGeom (crs : Option String) (g : String) : Geom :=
  match crs with
  | some c => if c = "EPSG:4326" then .tok g else .reproj c g
  | none => .tok g

/-- Output path of one transit-counts date group
(transit_counts_processor.py lines 63 and 117 and 149). -/
def transitGroupOut (k : String) : String :=
  "transit_counts_" ++ k ++ ".geojson"

/-- Attribute names excluded from transit-counts passthrough
(transit_counts_processor.py line 171). -/
def excludedTransit (timeField : String) : List String :=
  ["geometry", timeField, "VesselCount", "TransitCount"]

/-- One transit-counts feature (transit_counts_processor.py lines 158-174):
curated date / vessel_count / transit_count, then every remaining attribute
spread on top (later dict entries overwrite earlier ones). int() of an
unparsable attribute raises. -/
def buildTransitFeature (crs : Option String) (timeField date : String)
    (r : VRecord) : Except String Feat :=
  match pyInt (getAttr r.attrs "VesselCount" (.vnum 0)),
        pyInt (getAttr r.attrs "TransitCount" (.vnum 0)) with
  | .ok vc, .ok tc =>
      .ok ⟨normRecGeom crs r.geom,
        dictUnion
          [("date", .vstr date), ("vessel_count", .vnum vc),
           ("transit_count", .vnum tc)]
          (r.attrs.filter (fun kv => kv.1 ∉ excludedTransit timeField))⟩
  | .error e, _ => .error e
  | _, .error e => .error e

/-- Process one transit-counts date group (transit_counts_processor.py lines
147-179): skip if the target exists (no force flag reaches this level),
otherwise build all features and write; a record failure aborts before the
write. -/
def transitProcessGroup (crs : Option String) (timeField k : String)
    (grp : List (DateT × VRecord)) (fs : FS) : FS × Option String :=
  if fsExists fs (transitGroupOut k) then (fs, none)
  else
    match grp.mapM (fun p => buildTransitFeature crs timeField k p.2) with
    | .ok feats => (alins fs (transitGroupOut k) feats, none)
    | .error e => (fs, some e)

/-- The per-group loop of process_shapefile: groups processed in key order; an
exception stops the remaining groups. -/
def transitProcessGroups (crs : Option String) (timeField : String)
    (recs : List (DateT × VRecord)) : List String → FS → FS × Option String
  | [], fs => (fs, none)
  | k :: ks, fs =>
      match transitProcessGroup crs timeField k (groupOf k recs) fs with
      | (fs1, none) => transitProcessGroups crs timeField recs ks fs1
      | (fs1, some e) => (fs1, some e)

/-- gdf.to_file of a whole GeoDataFrame: every record serialized with its
original attributes as properties (no curated fields, no date added). -/
def rawFeature (crs : Option String) (r : VRecord) : Feat :=
  ⟨normRecGeom crs r.geom, r.attrs⟩

/-- process_shapefile (transit_counts_processor.py lines 106-179). Returns the
updated output directory and the error message of a raised exception, if any
(writes performed before the exception are kept). -/
def process_shapefile (stem : String) (shp : ShpData) (timeField : String)
    (fs : FS) : FS × Option String :=
  if timeField ∈ shp.columns then
    match parseTimes timeField shp.records with
    | .error e => (fs, some e)
    | .ok recs => transitProcessGroups shp.crs timeField recs (groupKeys recs) fs
  else
    match extract_date_from_filename stem with
    | some d =>
        (alins fs (transitGroupOut d) (shp.records.map (rawFeature shp.crs)), none)
    | none =>
        (fs, some ("Time field " ++ timeField ++
          " not found in the data and couldn't extract date from filename"))

/-- Affine pixel-to-geographic transform of a raster:
x = a*col + b*row + c, y = d*col + e*row + f. -/
structure Affine where
  a : Rat
  b : Rat
  c : Rat
  d : Rat
  e : Rat
  f : Rat

/-- rasterio.transform.xy(transform, row, col) with the default pixel-center
offset. -/
def pixelXY (t : Affine) (row col : Nat) : Rat × Rat :=
  (t.a * ((col : Rat) + 1/2) + t.b * ((row : Rat) + 1/2) + t.c,
   t.d * ((col : Rat) + 1/2) + t.e * ((row : Rat) + 1/2) + t.f)

/-- A raster dataset at the rasterio/GDAL boundary: grid dimensions, band
values, affine transform, declared CRS. `readable` models whether
rasterio.open and the band read succeed; `csvXY` models the gdal_translate
CSV export consumed by the fallback path (none when the export lacks X and Y
columns, which makes the fallback raise). -/
structure RasterDataset where
  width : Nat
  height : Nat
  band : Nat → Nat → Int
  transform : Affine
  crs : Option String
  readable : Bool
  csvXY : Option (List (Rat × Rat × Int))

/-- range(0, n, step) of Python (for step > 0). -/
def strideIdx (n step : Nat) : List Nat :=
  (List.range n).filter (fun i => i % step = 0)

/-- The sampling loops of process_geotiff (transit_counts_processor.py lines
206-233): every step-th row and column, keeping only strictly positive cell
values, each sample a point at the pixel's geographic coordinates carrying
value, date and source filename. -/
def sampleRaster (ds : RasterDataset) (step : Nat) (dateStr srcName : String) :
    List Feat :=
  (strideIdx ds.height step).flatMap (fun y =>
    (strideIdx ds.width step).filterMap (fun x =>
      if ds.band y x > 0 then
        some ⟨.pt (pixelXY ds.transform y x).1 (pixelXY ds.transform y x).2,
              [("value", .vnum (ds.band y x)), ("date", .vstr dateStr),
               ("source_file", .vstr srcName)]⟩
      else none))

/-- The set_crs / to_crs block of process_geotiff (lines 235-242): a declared
CRS is reprojected to WGS84 by the external capability (identity when already
WGS84); an undeclared CRS is assumed WGS84 with a warning. -/
def applyCrsPoints (crs : Option String) (feats : List Feat) : List Feat :=
  match crs with
  | some c =>
      if c = "EPSG:4326" then feats
      else feats.map (fun ft =>
        match ft.geom with
        | .pt x y => ⟨.reprojPt c x y, ft.props⟩
        | g => ⟨g, ft.props⟩)
  | none => feats

/-- The point feature collection the primary raster path writes. -/
def primaryFeatures (ds : RasterDataset) (step : Nat) (dateStr srcName : String) :
    List Feat :=
  applyCrsPoints ds.crs (sampleRaster ds step dateStr srcName)

/-- One fallback-path feature: a point built from the exported X/Y columns
(taken as WGS84 verbatim, no reprojection) with the remaining value column,
plus date and source filename (transit_counts_processor.py lines 280-293). -/
def csvFeature (dateStr srcName : String) (row : Rat × Rat × Int) : Feat :=
  ⟨.pt row.1 row.2.1,
   [("value", .vnum row.2.2), ("date", .vstr dateStr),
    ("source_file", .vstr srcName)]⟩

/-- The point feature collection the fallback path writes: one feature per
exported row, no stride, no positivity filter, no reprojection. -/
def fallbackFeatures (rows : List (Rat × Rat × Int)) (dateStr srcName : String) :
    List Feat :=
  rows.map (csvFeature dateStr srcName)

/-- The try-block of process_geotiff (lines 197-245): open the raster, sample,
normalize CRS, write. An unreadable raster raises. -/
def primaryRasterPath (ds : RasterDataset) (dateStr srcName out : String)
    (fs : FS) : Except String FS :=
  if ds.readable then
    .ok (alins fs out (primaryFeatures ds 10 dateStr srcName))
  else .error "rasterio could not open the file"

/-- convert_tiff_to_point_cloud (transit_counts_processor.py lines 258-303):
return unchanged if the output already exists; otherwise build points from the
exported X/Y rows, or raise when the export has no X/Y columns. -/
def convert_tiff_to_point_cloud (ds : RasterDataset) (dateStr srcName out : String)
    (fs : FS) : Except String FS :=
  if fsExists fs out then .ok fs
  else
    match ds.csvXY with
    | some rows => .ok (alins fs out (fallbackFeatures rows dateStr srcName))
    | none => .error "CSV file does not contain X and Y columns"

/-- The exception structure of process_geotiff (lines 197-255): run the
primary path; on failure invoke the fallback (counted), whose own failure
propagates. Returns the outcome and the number of fallback invocations. -/
def tryWithFallback (primary : Except String FS)
    (fallback : Unit → Except String FS) : Except String FS × Nat :=
  match primary with
  | .ok fs1 => (.ok fs1, 0)
  | .error _ =>
      match fallback () with
      | .ok fs1 => (.ok fs1, 1)
      | .error e2 => (.error e2, 1)

/-- Output path of a GeoTIFF artifact (transit_counts_processor.py line 191). -/
def geotiffOut (d stem : String) : String :=
  "transit_counts_" ++ d ++ "_" ++ stem ++ ".geojson"

/-- process_geotiff (transit_counts_processor.py lines 182-255). `nowYear` is
datetime.now().strftime("%Y"), used when the filename has no 4-digit run.
Returns the updated output directory and a raised error, if any. -/
def process_geotiff (nowYear : String) (ds : RasterDataset) (stem name : String)
    (fs : FS) : FS × Option String :=
  let dateStr := (extract_date_from_filename stem).getD nowYear
  let out := geotiffOut dateStr stem
  if fsExists fs out then (fs, none)
  else
    match (tryWithFallback (primaryRasterPath ds dateStr name out fs)
            (fun _ => convert_tiff_to_point_cloud ds dateStr name out fs)).1 with
    | .ok fs1 => (fs1, none)
    | .error e => (fs, some e)

/-- Payload of an input file: vector data, raster data, or something the
geospatial readers cannot parse. -/
inductive FileData where
  | vec (d : ShpData)
  | ras (d : RasterDataset)
  | other

/-- A candidate input file: filename stem, extension (with leading dot, as
Path.suffix gives it), and payload. -/
structure InputFile where
  stem : String
  ext : String
  data : FileData

/-- gpd.read_file: succeeds exactly on vector data. -/
def readVec (f : InputFile) : Except String ShpData :=
  match f.data with
  | .vec d => .ok d
  | _ => .error "gpd.read_file failed"

/-- rasterio.open at dispatch: succeeds exactly on raster data (the raster's
own readability is judged inside process_geotiff). -/
def readRas (f : InputFile) : Except String RasterDataset :=
  match f.data with
  | .ras d => .ok d
  | _ => .error "not a raster file"

/-- file.suffix.lower(). -/
def lowerExt (f : InputFile) : String :=
  String.mk (f.ext.data.map Char.toLower)

/-- file.name (stem plus original extension). -/
def fileName (f : InputFile) : String :=
  f.stem ++ f.ext

/-- Counters accumulated by a driver run. `errors` counts executions of the
driver's per-file exception handler (the error log lines it prints). -/
structure Counts where
  processed : Nat
  skipped : Nat
  errors : Nat
deriving DecidableEq

/-- State threaded through a driver run: the output directory and the
counters. -/
structure RunState where
  fs : FS
  counts : Counts
deriving DecidableEq

/-- The driver-level idempotency-gate path of process_transit_counts (lines
58-82): for .shp the filename-derived date artifact, for .tif the
filename-derived geotiff artifact; none when no 4-digit run exists (or for an
unsupported extension). -/
def transitGatePath (f : InputFile) : Option String :=
  if lowerExt f = ".shp" then
    (extract_date_from_filename f.stem).map transitGroupOut
  else if lowerExt f = ".tif" then
    (extract_date_from_filename f.stem).map (fun d => geotiffOut d f.stem)
  else none

/-- Whether the driver-level gate fires: the gate path exists and force is
false. -/
def transitGateHit (fs : FS) (force : Bool) (f : InputFile) : Bool :=
  match transitGatePath f with
  | some p => fsExists fs p && !force
  | none => false

/-- Outcome of the driver's per-file exception handler (lines 97-99): the
partial output state is kept and the error is logged. -/
@[simp] def errResult (st : RunState) : RunState :=
  ⟨st.fs, ⟨st.counts.processed, st.counts.skipped, st.counts.errors + 1⟩⟩

/-- Outcome of dispatching a transit file: processed on success, the exception
handler on a raised error (line 95 versus 97-99). -/
@[simp] def dispatchResult (st : RunState) (r : FS × Option String) : RunState :=
  match r with
  | (fs1, none) =>
      ⟨fs1, ⟨st.counts.processed + 1, st.counts.skipped, st.counts.errors⟩⟩
  | (fs1, some _) =>
      ⟨fs1, ⟨st.counts.processed, st.counts.skipped, st.counts.errors + 1⟩⟩

/-- One iteration of the process_transit_counts loop (transit_counts_processor.py
lines 54-99): driver gate, dispatch by extension, counter updates, and the
per-file exception handler. -/
def transitStep (force : Bool) (nowYear timeField : String) (st : RunState)
    (f : InputFile) : RunState :=
  if transitGateHit st.fs force f then
    ⟨st.fs, ⟨st.counts.processed, st.counts.skipped + 1, st.counts.errors⟩⟩
  else if lowerExt f = ".shp" then
    match readVec f with
    | .error _ => errResult st
    | .ok shp => dispatchResult st (process_shapefile f.stem shp timeField st.fs)
  else if lowerExt f = ".tif" then
    match readRas f with
    | .error _ => errResult st
    | .ok ds =>
        dispatchResult st (process_geotiff nowYear ds f.stem (fileName f) st.fs)
  else st

/-- process_transit_counts (transit_counts_processor.py lines 22-103) over an
already-enumerated file list. -/
def process_transit_counts (force : Bool) (nowYear timeField : String)
    (files : List InputFile) (st : RunState) : RunState :=
  files.foldl (transitStep force nowYear timeField) st

/-- Output path of one vessel-tracks artifact (vessel_tracks_processor.py
lines 58 and 98). -/
def vesselGroupOut (k : String) : String :=
  "vessel_tracks_" ++ k ++ ".geojson"

/-- Keys of the curated vessel_info dict (vessel_tracks_processor.py lines
113-122), excluded from passthrough. -/
def vesselInfoKeys : List String :=
  ["mmsi", "vessel_type", "vessel_name", "length", "width", "draft", "speed",
   "course"]

/-- The curated vessel fields. -/
structure VesselInfo where
  mmsi : String
  vessel_type : String
  vessel_name : String
  length : Int
  width : Int
  draft : Int
  speed : Int
  course : Int
deriving DecidableEq

/-- The vessel_info dict of vessel_tracks_processor.py lines 113-122: strings
via str() with empty-string default, numbers via float() with zero default
(raising on an unparsable present value). -/
def buildVesselInfo (attrs : Dict) : Except String VesselInfo :=
  match pyFloat (getAttr attrs "Length" (.vnum 0)),
        pyFloat (getAttr attrs "Width" (.vnum 0)),
        pyFloat (getAttr attrs "Draft" (.vnum 0)),
        pyFloat (getAttr attrs "SOG" (.vnum 0)),
        pyFloat (getAttr attrs "COG" (.vnum 0)) with
  | .ok len, .ok wid, .ok dra, .ok spd, .ok cog =>
      .ok ⟨pyStr (getAttr attrs "MMSI" (.vstr "")),
           pyStr (getAttr attrs "VesselType" (.vstr "")),
           pyStr (getAttr attrs "VesselName" (.vstr "")),
           len, wid, dra, spd, cog⟩
  | .error e, _, _, _, _ => .error e
  | _, .error e, _, _, _ => .error e
  | _, _, .error e, _, _ => .error e
  | _, _, _, .error e, _ => .error e
  | _, _, _, _, .error e => .error e

/-- The vessel_info entries in dict order. -/
def vesselInfoDict (vi : VesselInfo) : Dict :=
  [("mmsi", .vstr vi.mmsi), ("vessel_type", .vstr vi.vessel_type),
   ("vessel_name", .vstr vi.vessel_name), ("length", .vnum vi.length),
   ("width", .vnum vi.width), ("draft", .vnum vi.draft),
   ("speed", .vnum vi.speed), ("course", .vnum vi.course)]

/-- One vessel-tracks feature (vessel_tracks_processor.py lines 111-139):
date and timestamp, then the curated vessel_info, then every attribute not
named geometry, the time field, or a vessel_info key, spread on top. -/
def buildVesselFeature (crs : Option String) (timeField k : String)
    (p : DateT × VRecord) : Except String Feat :=
  match buildVesselInfo p.2.attrs with
  | .error e => .error e
  | .ok vi =>
      .ok ⟨normRecGeom crs p.2.geom,
        dictUnion
          (dictUnion [("date", .vstr k), ("timestamp", .vstr (isoformat p.1))]
            (vesselInfoDict vi))
          (p.2.attrs.filter
            (fun kv => kv.1 ∉ ("geometry" :: timeField :: vesselInfoKeys)))⟩

/-- Process one vessel-tracks date group (vessel_tracks_processor.py lines
96-146): skip (counted) when the target exists and force is false; otherwise
build all features and write (counted as processed); a record failure raises
before the write. -/
def vesselProcessGroup (force : Bool) (crs : Option String) (timeField k : String)
    (grp : List (DateT × VRecord)) (fs : FS) (c : Counts) :
    FS × Counts × Option String :=
  let out := vesselGroupOut k
  if fsExists fs out && !force then
    (fs, { c with skipped := c.skipped + 1 }, none)
  else
    match grp.mapM (buildVesselFeature crs timeField k) with
    | .ok feats =>
        (alins fs out feats, { c with processed := c.processed + 1 }, none)
    | .error e => (fs, c, some e)

/-- The per-group loop of process_vessel_tracks; an exception stops the
remaining groups of the file. -/
def vesselProcessGroups (force : Bool) (crs : Option String) (timeField : String)
    (recs : List (DateT × VRecord)) :
    List String → FS → Counts → FS × Counts × Option String
  | [], fs, c => (fs, c, none)
  | k :: ks, fs, c =>
      match vesselProcessGroup force crs timeField k (groupOf k recs) fs c with
      | (fs1, c1, none) => vesselProcessGroups force crs timeField recs ks fs1 c1
      | (fs1, c1, some e) => (fs1, c1, some e)

/-- Outcome of the per-group loop of a vessel file: the accumulated state, the
exception handler on a raised error. -/
@[simp] def vesselDispatch (r : FS × Counts × Option String) : RunState :=
  match r with
  | (fs1, c1, none) => ⟨fs1, c1⟩
  | (fs1, c1, some _) => ⟨fs1, ⟨c1.processed, c1.skipped, c1.errors + 1⟩⟩

/-- The filename-dated whole-file branch of process_vessel_tracks (lines
54-80): gate on the single artifact, write the raw records otherwise. -/
def vesselWholeFile (force : Bool) (st : RunState) (shp : ShpData)
    (stem : String) : RunState :=
  match extract_date_from_filename stem with
  | some d =>
      if fsExists st.fs (vesselGroupOut d) && !force then
        ⟨st.fs, ⟨st.counts.processed, st.counts.skipped + 1, st.counts.errors⟩⟩
      else
        ⟨alins st.fs (vesselGroupOut d) (shp.records.map (rawFeature shp.crs)),
         ⟨st.counts.processed + 1, st.counts.skipped, st.counts.errors⟩⟩
  | none => errResult st

/-- Processing of one successfully read vessel file (vessel_tracks_processor.py
lines 52-146): branch on the temporal field into per-group processing or the
filename-dated whole-file branch. -/
def vesselFileBody (force : Bool) (timeField : String) (st : RunState)
    (shp : ShpData) (stem : String) : RunState :=
  if timeField ∈ shp.columns then
    match parseTimes timeField shp.records with
    | .error _ => errResult st
    | .ok recs =>
        vesselDispatch (vesselProcessGroups force shp.crs timeField recs
          (groupKeys recs) st.fs st.counts)
  else vesselWholeFile force st shp stem

/-- One iteration of the process_vessel_tracks loop (vessel_tracks_processor.py
lines 47-150): read, process, with the per-file exception handler. -/
def vesselStep (force : Bool) (timeField : String) (st : RunState)
    (f : InputFile) : RunState :=
  match readVec f with
  | .error _ => errResult st
  | .ok shp => vesselFileBody force timeField st shp f.stem

/-- process_vessel_tracks (vessel_tracks_processor.py lines 18-154) over an
already-enumerated file list. -/
def process_vessel_tracks (force : Bool) (timeField : String)
    (files : List InputFile) (st : RunState) : RunState :=
  files.foldl (vesselStep force timeField) st

/-- Maximal digit runs of a character list, left to right; the accumulator
holds the current run reversed. -/
def digitRunsAux : List Char → List Char → List (List Char)
  | acc, [] => if acc = [] then [] else [acc.reverse]
  | acc, c :: cs =>
      if c.isDigit then digitRunsAux (c :: acc) cs
      else (if acc = [] then [] else [acc.reverse]) ++ digitRunsAux [] cs

/-- Maximal digit runs of a string. -/
def digitRuns (s : String) : List (List Char) :=
  digitRunsAux [] s.data

/-- Key resolution as the claim words it: the leftmost maximal run of exactly
four consecutive digits, or failure when no such run exists. Stated from the
spec's words, for comparison against extract_date_from_filename. -/
def specExactFourRun (s : String) : Option String :=
  ((digitRuns s).filter (fun r => r.length = 4)).head?.map String.mk

example : specExactFourRun "AISVTC2023Atlantic" = some "2023" := by decide
example : specExactFourRun "x12345y" = none := by decide

/-- A faithful per-cell tabular export of a raster: every pixel's geographic
center coordinates and its value, row-major. Models the external
gdal_translate export when it is consistent with the raster's own grid. -/
def faithfulExport (ds : RasterDataset) : List (Rat × Rat × Int) :=
  (List.range ds.height).flatMap (fun y =>
    (List.range ds.width).map (fun x =>
      ((pixelXY ds.transform y x).1, (pixelXY ds.transform y x).2, ds.band y x)))

/-- The strided, positive-valued subset of cells the primary sampler keeps. -/
def stridedPositive (ds : RasterDataset) (step : Nat) : List (Rat × Rat × Int) :=
  (strideIdx ds.height step).flatMap (fun y =>
    (strideIdx ds.width step).filterMap (fun x =>
      if ds.band y x > 0 then
        some ((pixelXY ds.transform y x).1, (pixelXY ds.transform y x).2,
              ds.band y x)
      else none))

/-- Whether an Except value is a success. -/
def exIsOk {α : Type} : Except String α → Bool
  | .ok _ => true
  | .error _ => false

/-- Entry preservation between two output-directory states: everything written
in the first is present unchanged in the second. -/
def fsLe (fs fs1 : FS) : Prop :=
  ∀ p v, alook fs p = some v → alook fs1 p = some v

/-- A trivial affine transform for concrete instances. -/
def affine1 : Affine := ⟨1, 0, 0, 0, 1, 0⟩

/-- Concrete raster whose primary path and fallback export both fail. -/
def rasterBothFail : RasterDataset :=
  ⟨1, 1, fun _ _ => 1, affine1, none, false, none⟩

/-- Concrete raster whose primary path fails but whose CSV export succeeds. -/
def rasterFallbackOk : RasterDataset :=
  ⟨1, 1, fun _ _ => 1, affine1, none, false, some [(1/2, 1/2, 1)]⟩

/-- Concrete all-zero 1x1 raster. -/
def rasterZero : RasterDataset :=
  ⟨1, 1, fun _ _ => 0, affine1, none, true, none⟩

/-- Concrete raster with one negative cell and a faithful per-cell export. -/
def rasterNeg : RasterDataset :=
  ⟨1, 1, fun _ _ => -3, affine1, some "EPSG:4326", true, some [(1/2, 1/2, -3)]⟩

/-- Concrete 1x1 raster with one positive cell. -/
def rasterPos : RasterDataset :=
  ⟨1, 1, fun _ _ => 5, affine1, some "EPSG:4326", true, some [(1/2, 1/2, 5)]⟩

/-- Concrete transit-counts record dated 2023-05-01. -/
def recTransit1 : VRecord := ⟨"g1", [("BaseDateTime", .vtime ⟨2023, 5, 1⟩)]⟩

/-- Concrete transit-counts shapefile with a valid temporal field. -/
def shpTransit1 : ShpData := ⟨some "EPSG:4326", ["BaseDateTime"], [recTransit1]⟩

/-- Concrete transit-counts input file (its stem carries a 4-digit run). -/
def fileTransit1 : InputFile := ⟨"a2023", ".shp", .vec shpTransit1⟩

/-- An output directory already holding a stale, empty 2023-05-01 artifact. -/
def fsStale : FS := [("transit_counts_2023-05-01.geojson", [])]

/-- Concrete vessel record whose Length attribute is a non-numeric string. -/
def recBadLength : VRecord :=
  ⟨"g", [("TIMESTAMP", .vtime ⟨2023, 5, 1⟩), ("Length", .vstr "abc")]⟩

/-- Concrete vessel-tracks file containing the bad-Length record. -/
def fileBadLength : InputFile :=
  ⟨"t2023", ".shp", .vec ⟨some "EPSG:4326", ["TIMESTAMP"], [recBadLength]⟩⟩

/-- Concrete vessel record dated to a given day of 2023-05. -/
def recTrk (d : Nat) : VRecord := ⟨"g", [("TIMESTAMP", .vtime ⟨2023, 5, d⟩)]⟩

/-- Concrete vessel-tracks file spanning two distinct dates. -/
def fileTracks2 : InputFile :=
  ⟨"trk2023", ".shp", .vec ⟨some "EPSG:4326", ["TIMESTAMP"], [recTrk 1, recTrk 2]⟩⟩

/-- Concrete transit record dated to a given day of 2023-05. -/
def recCnt (d : Nat) : VRecord := ⟨"g", [("BaseDateTime", .vtime ⟨2023, 5, d⟩)]⟩

/-- Concrete transit-counts file spanning two distinct dates. -/
def fileCounts2 : InputFile :=
  ⟨"cnt2023", ".shp", .vec ⟨some "EPSG:4326", ["BaseDateTime"], [recCnt 1, recCnt 2]⟩⟩

/-- Concrete .tif input whose raster fails on both paths. -/
def fileBadTif : InputFile := ⟨"b7777", ".tif", .ras rasterBothFail⟩

/-- Concrete .tif input recovered by the fallback path. -/
def fileFbTif : InputFile := ⟨"c7777", ".tif", .ras rasterFallbackOk⟩

/-- Whether the transit driver dispatches this file at all. -/
def transitSupported (f : InputFile) : Bool :=
  lowerExt f = ".shp" || lowerExt f = ".tif"

/-- The artifact paths the body of the transit driver consults or writes for a
file (empty when the body raises before reaching them). -/
def transitInnerOuts (ny tf : String) (f : InputFile) : List String :=
  if lowerExt f = ".shp" then
    match readVec f with
    | .error _ => []
    | .ok shp =>
        if tf ∈ shp.columns then
          match parseTimes tf shp.records with
          | .ok recs => (groupKeys recs).map transitGroupOut
          | .error _ => []
        else
          match extract_date_from_filename f.stem with
          | some d => [transitGroupOut d]
          | none => []
  else if lowerExt f = ".tif" then
    match readRas f with
    | .ok _ => [geotiffOut ((extract_date_from_filename f.stem).getD ny) f.stem]
    | .error _ => []
  else []

/-- The conditions under which the body of the transit driver raises no
exception before reaching its per-artifact gates. -/
def transitBodyOk (tf : String) (f : InputFile) : Prop :=
  (lowerExt f = ".shp" →
    ∃ shp, readVec f = .ok shp ∧
      (tf ∈ shp.columns → ∃ recs, parseTimes tf shp.records = .ok recs) ∧
      (tf ∉ shp.columns → ∃ d, extract_date_from_filename f.stem = some d)) ∧
  (lowerExt f = ".tif" → ∃ ds, readRas f = .ok ds)

/-- A file is ready for a silent re-run over output state R: either the driver
gate fires, or the body runs cleanly with every inner artifact already
present. -/
def transitReady (ny tf : String) (R : FS) (f : InputFile) : Prop :=
  transitGateHit R false f = true ∨
    (transitBodyOk tf f ∧
      ∀ p, p ∈ transitInnerOuts ny tf f → fsExists R p = true)

/-- The artifact paths the vessel driver consults or writes for a file. -/
def vesselInnerOuts (tf : String) (f : InputFile) : List String :=
  match readVec f with
  | .error _ => []
  | .ok shp =>
      if tf ∈ shp.columns then
        match parseTimes tf shp.records with
        | .ok recs => (groupKeys recs).map vesselGroupOut
        | .error _ => []
      else
        match extract_date_from_filename f.stem with
        | some d => [vesselGroupOut d]
        | none => []

/-- The conditions under which the vessel driver body raises no exception
before reaching its per-artifact gates. -/
def vesselBodyOk (tf : String) (f : InputFile) : Prop :=
  ∃ shp, readVec f = .ok shp ∧
    (tf ∈ shp.columns → ∃ recs, parseTimes tf shp.records = .ok recs) ∧
    (tf ∉ shp.columns → ∃ d, extract_date_from_filename f.stem = some d)

theorem alook_alins {α : Type} (l : List (String × α)) (k q : String) (v : α) :
    alook (alins l k v) q = if q = k then some v else alook l q := by
  induction l with
  | nil =>
      rcases eq_or_ne q k with hq | hq
      · simp [alins, alook, hq]
      · simp [alins, alook, hq, Ne.symm hq]
  | cons kv rest ih =>
      rcases eq_or_ne kv.1 k with hk | hk
      · rcases eq_or_ne q k with hq | hq
        · simp [alins, alook, hk, hq]
        · simp [alins, alook, hk, hq, Ne.symm hq]
      · rcases eq_or_ne q k with hq | hq
        · have hkq : ¬ kv.1 = q := by rw [hq]; exact hk
          have ih1 := ih
          rw [hq] at ih1
          simp [alins, alook, hk, hq, hkq, ih1]
        · simp [alins, alook, hk, hq, ih]

theorem fsExists_alins (fs : FS) (k q : String) (v : List Feat) :
    fsExists (alins fs k v) q = ((q = k : Bool) || fsExists fs q) := by
  by_cases hq : q = k <;> simp [fsExists, alook_alins, hq]

theorem fsLe_refl (fs : FS) : fsLe fs fs := fun _ _ h => h

theorem fsLe_trans {fs1 fs2 fs3 : FS} (h1 : fsLe fs1 fs2) (h2 : fsLe fs2 fs3) :
    fsLe fs1 fs3 := fun p v h => h2 p v (h1 p v h)

theorem fsLe_alins_of_not_exists {fs : FS} {k : String} (v : List Feat)
    (h : fsExists fs k = false) : fsLe fs (alins fs k v) := by
  intro p w hp
  rw [alook_alins]
  have hpk : ¬ p = k := by
    intro he
    rw [he] at hp
    simp [fsExists, hp] at h
  simp [hpk, hp]

theorem fsExists_of_fsLe {fs fs1 : FS} (h : fsLe fs fs1) {p : String}
    (hp : fsExists fs p = true) : fsExists fs1 p = true := by
  simp only [fsExists, Option.isSome_iff_exists] at hp ⊢
  obtain ⟨v, hv⟩ := hp
  exact ⟨v, h p v hv⟩

theorem exIsOk_true {α : Type} {e : Except String α} (h : exIsOk e = true) :
    ∃ a, e = .ok a := by
  cases e with
  | ok a => exact ⟨a, rfl⟩
  | error msg => simp [exIsOk] at h

theorem exIsOk_false {α : Type} {e : Except String α} (h : exIsOk e = false) :
    ∃ msg, e = .error msg := by
  cases e with
  | ok a => simp [exIsOk] at h
  | error msg => exact ⟨msg, rfl⟩

theorem mem_strideIdx {i n step : Nat} (h : i ∈ strideIdx n step) : i < n := by
  have := List.mem_filter.mp h
  exact List.mem_range.mp this.1

theorem sampleRaster_nil (ds : RasterDataset) (step : Nat) (d s : String)
    (h : ∀ y x, y < ds.height → x < ds.width → ds.band y x ≤ 0) :
    sampleRaster ds step d s = [] := by
  unfold sampleRaster
  rw [List.flatMap_eq_nil_iff]
  intro y hy
  rw [List.filterMap_eq_nil_iff]
  intro x hx
  have hb := h y x (mem_strideIdx hy) (mem_strideIdx hx)
  have : ¬ ds.band y x > 0 := by omega
  simp [this]

theorem primaryFeatures_nil (ds : RasterDataset) (step : Nat) (d s : String)
    (h : ∀ y x, y < ds.height → x < ds.width → ds.band y x ≤ 0) :
    primaryFeatures ds step d s = [] := by
  unfold primaryFeatures
  rw [sampleRaster_nil ds step d s h]
  cases hc : ds.crs with
  | none => simp [applyCrsPoints]
  | some c => simp [applyCrsPoints]

theorem alook_dictUnion_of_none (e d : Dict) (q : String)
    (h : alook e q = none) : alook (dictUnion d e) q = alook d q := by
  induction e generalizing d with
  | nil => rfl
  | cons kv rest ih =>
      have hk : ¬ kv.1 = q := by
        intro h1
        simp [alook, h1] at h
      have hr : alook rest q = none := by
        simpa [alook, hk] using h
      simp only [dictUnion, List.foldl_cons] at *
      rw [ih (alins d kv.1 kv.2) hr, alook_alins]
      have hqk : ¬ q = kv.1 := fun h1 => hk h1.symm
      simp [hqk]

theorem alook_filter_none {α : Type} (l : List (String × α))
    (p : String × α → Bool) (q : String) (h : alook l q = none) :
    alook (l.filter p) q = none := by
  induction l with
  | nil => rfl
  | cons kv rest ih =>
      have hk : ¬ kv.1 = q := by
        intro h1
        simp [alook, h1] at h
      have hr : alook rest q = none := by
        simpa [alook, hk] using h
      cases hp : p kv with
      | true => simp [List.filter, hp, alook, hk, ih hr]
      | false => simp [List.filter, hp, ih hr]

theorem buildVesselInfo_ok_parses (attrs : Dict) (vi : VesselInfo)
    (h : buildVesselInfo attrs = .ok vi) :
    ∀ k, k ∈ ["Length", "Width", "Draft", "SOG", "COG"] →
      exIsOk (pyFloat (getAttr attrs k (.vnum 0))) = true := by
  cases hL : pyFloat (getAttr attrs "Length" (.vnum 0)) with
  | error e => simp [buildVesselInfo, hL] at h
  | ok nL =>
  cases hW : pyFloat (getAttr attrs "Width" (.vnum 0)) with
  | error e => simp [buildVesselInfo, hL, hW] at h
  | ok nW =>
  cases hD : pyFloat (getAttr attrs "Draft" (.vnum 0)) with
  | error e => simp [buildVesselInfo, hL, hW, hD] at h
  | ok nD =>
  cases hS : pyFloat (getAttr attrs "SOG" (.vnum 0)) with
  | error e => simp [buildVesselInfo, hL, hW, hD, hS] at h
  | ok nS =>
  cases hC : pyFloat (getAttr attrs "COG" (.vnum 0)) with
  | error e => simp [buildVesselInfo, hL, hW, hD, hS, hC] at h
  | ok nC =>
      intro k hk
      simp only [List.mem_cons, List.not_mem_nil, or_false] at hk
      rcases hk with h1 | h1 | h1 | h1 | h1 <;> subst h1 <;>
        simp [hL, hW, hD, hS, hC, exIsOk]

/-- C6 counterexample: a record whose Length attribute is the non-numeric
string "abc" does not serialize with length zero — serialization raises
instead, and the containing vessel-tracks file is counted as errored with no
artifact written. The claim's "equals zero when ... unparsable as a number;
serialization does not fail on such records" fails. -/
theorem curated_defaults_counterexample :
    buildVesselInfo [("Length", PyVal.vstr "abc")] =
      .error "could not convert string to float: abc" ∧
    vesselStep false "TIMESTAMP" ⟨[], ⟨0, 0, 0⟩⟩ fileBadLength =
      ⟨[], ⟨0, 0, 1⟩⟩ := by
  constructor
  · rfl
  · decide

/-- C6 (amended): numeric curated fields default to zero and string curated
fields default to the empty string when the source attribute is absent, and
serialization succeeds when every present numeric curated attribute parses as
a number; but a present, unparsable numeric curated attribute makes
serialization raise (failing the file) rather than defaulting to zero. -/
theorem curated_defaults_amended :
    (∀ attrs : Dict,
      ((∀ k, k ∈ ["Length", "Width", "Draft", "SOG", "COG"] →
          exIsOk (pyFloat (getAttr attrs k (.vnum 0))) = true) →
        ∃ vi, buildVesselInfo attrs = .ok vi ∧
          (alook attrs "Length" = none → vi.length = 0) ∧
          (alook attrs "Width" = none → vi.width = 0) ∧
          (alook attrs "Draft" = none → vi.draft = 0) ∧
          (alook attrs "SOG" = none → vi.speed = 0) ∧
          (alook attrs "COG" = none → vi.course = 0) ∧
          (alook attrs "MMSI" = none → vi.mmsi = "") ∧
          (alook attrs "VesselType" = none → vi.vessel_type = "") ∧
          (alook attrs "VesselName" = none → vi.vessel_name = "")) ∧
      ((∃ k, k ∈ ["Length", "Width", "Draft", "SOG", "COG"] ∧
          exIsOk (pyFloat (getAttr attrs k (.vnum 0))) = false) →
        ∃ e, buildVesselInfo attrs = .error e)) ∧
    (∀ (crs : Option String) (tf date : String) (r : VRecord),
      exIsOk (pyInt (getAttr r.attrs "VesselCount" (.vnum 0))) = true →
      exIsOk (pyInt (getAttr r.attrs "TransitCount" (.vnum 0))) = true →
      ∃ ft, buildTransitFeature crs tf date r = .ok ft ∧
        (alook r.attrs "VesselCount" = none →
          alook r.attrs "vessel_count" = none →
          alook ft.props "vessel_count" = some (.vnum 0)) ∧
        (alook r.attrs "TransitCount" = none →
          alook r.attrs "transit_count" = none →
          alook ft.props "transit_count" = some (.vnum 0))) := by
  constructor
  · intro attrs
    constructor
    · intro h
      obtain ⟨nL, hL⟩ := exIsOk_true (h "Length" (by simp))
      obtain ⟨nW, hW⟩ := exIsOk_true (h "Width" (by simp))
      obtain ⟨nD, hD⟩ := exIsOk_true (h "Draft" (by simp))
      obtain ⟨nS, hS⟩ := exIsOk_true (h "SOG" (by simp))
      obtain ⟨nC, hC⟩ := exIsOk_true (h "COG" (by simp))
      refine ⟨⟨pyStr (getAttr attrs "MMSI" (.vstr "")),
        pyStr (getAttr attrs "VesselType" (.vstr "")),
        pyStr (getAttr attrs "VesselName" (.vstr "")),
        nL, nW, nD, nS, nC⟩,
        by simp [buildVesselInfo, hL, hW, hD, hS, hC],
        ?_, ?_, ?_, ?_, ?_, ?_, ?_, ?_⟩
      · intro habs
        have h0 : pyFloat (getAttr attrs "Length" (.vnum 0)) = .ok 0 := by
          simp [getAttr, habs, pyFloat]
        rw [hL] at h0
        injection h0 with h1
      · intro habs
        have h0 : pyFloat (getAttr attrs "Width" (.vnum 0)) = .ok 0 := by
          simp [getAttr, habs, pyFloat]
        rw [hW] at h0
        injection h0 with h1
      · intro habs
        have h0 : pyFloat (getAttr attrs "Draft" (.vnum 0)) = .ok 0 := by
          simp [getAttr, habs, pyFloat]
        rw [hD] at h0
        injection h0 with h1
      · intro habs
        have h0 : pyFloat (getAttr attrs "SOG" (.vnum 0)) = .ok 0 := by
          simp [getAttr, habs, pyFloat]
        rw [hS] at h0
        injection h0 with h1
      · intro habs
        have h0 : pyFloat (getAttr attrs "COG" (.vnum 0)) = .ok 0 := by
          simp [getAttr, habs, pyFloat]
        rw [hC] at h0
        injection h0 with h1
      · intro habs
        simp [getAttr, habs, pyStr]
      · intro habs
        simp [getAttr, habs, pyStr]
      · intro habs
        simp [getAttr, habs, pyStr]
    · intro ⟨k, hk, hbad⟩
      cases hb : buildVesselInfo attrs with
      | error e => exact ⟨e, rfl⟩
      | ok vi =>
          have := buildVesselInfo_ok_parses attrs vi hb k hk
          rw [hbad] at this
          cases this
  · intro crs tf date r hvc htc
    obtain ⟨nv, hv⟩ := exIsOk_true hvc
    obtain ⟨nt, ht⟩ := exIsOk_true htc
    refine ⟨⟨normRecGeom crs r.geom,
      dictUnion
        [("date", .vstr date), ("vessel_count", .vnum nv),
         ("transit_count", .vnum nt)]
        (r.attrs.filter (fun kv => kv.1 ∉ excludedTransit tf))⟩,
      by simp [buildTransitFeature, hv, ht], ?_, ?_⟩
    · intro habs hlow
      have hv0 : pyInt (getAttr r.attrs "VesselCount" (.vnum 0)) = .ok 0 := by
        simp [getAttr, habs, pyInt]
      rw [hv] at hv0
      injection hv0 with h1
      subst h1
      have hp : alook (r.attrs.filter
          (fun kv => kv.1 ∉ excludedTransit tf)) "vessel_count" = none :=
        alook_filter_none r.attrs _ "vessel_count" hlow
      rw [alook_dictUnion_of_none _ _ _ hp]
      simp [alook]
    · intro habs hlow
      have ht0 : pyInt (getAttr r.attrs "TransitCount" (.vnum 0)) = .ok 0 := by
        simp [getAttr, habs, pyInt]
      rw [ht] at ht0
      injection ht0 with h1
      subst h1
      have hp : alook (r.attrs.filter
          (fun kv => kv.1 ∉ excludedTransit tf)) "transit_count" = none :=
        alook_filter_none r.attrs _ "transit_count" hlow
      rw [alook_dictUnion_of_none _ _ _ hp]
      simp [alook]

/-- C6 witness: a record with no attributes serializes with every numeric
curated field zero and every string curated field empty on both paths. -/
theorem curated_defaults_amended_witness :
    (∃ vi, buildVesselInfo [] = .ok vi ∧
      (alook ([] : Dict) "Length" = none → vi.length = 0) ∧
      (alook ([] : Dict) "Width" = none → vi.width = 0) ∧
      (alook ([] : Dict) "Draft" = none → vi.draft = 0) ∧
      (alook ([] : Dict) "SOG" = none → vi.speed = 0) ∧
      (alook ([] : Dict) "COG" = none → vi.course = 0) ∧
      (alook ([] : Dict) "MMSI" = none → vi.mmsi = "") ∧
      (alook ([] : Dict) "VesselType" = none → vi.vessel_type = "") ∧
      (alook ([] : Dict) "VesselName" = none → vi.vessel_name = "")) ∧
    (∃ ft, buildTransitFeature none "BaseDateTime" "2023-05-01" ⟨"g", []⟩
        = .ok ft ∧
      (alook ([] : Dict) "VesselCount" = none →
        alook ([] : Dict) "vessel_count" = none →
        alook ft.props "vessel_count" = some (.vnum 0)) ∧
      (alook ([] : Dict) "TransitCount" = none →
        alook ([] : Dict) "transit_count" = none →
        alook ft.props "transit_count" = some (.vnum 0))) :=
  ⟨(curated_defaults_amended.1 []).1 (by decide),
   curated_defaults_amended.2 none "BaseDateTime" "2023-05-01" ⟨"g", []⟩
     (by decide) (by decide)⟩

theorem fourDigitsAt_some {l : List Char} {r : String}
    (h : fourDigitsAt l = some r) :
    ∃ a b c d rest, l = a :: b :: c :: d :: rest ∧ r = String.mk [a, b, c, d] ∧
      (a.isDigit && b.isDigit && c.isDigit && d.isDigit) = true := by
  match l with
  | [] => simp [fourDigitsAt] at h
  | [a] => simp [fourDigitsAt] at h
  | [a, b] => simp [fourDigitsAt] at h
  | [a, b, c] => simp [fourDigitsAt] at h
  | a :: b :: c :: d :: rest =>
      by_cases hd : (a.isDigit && b.isDigit && c.isDigit && d.isDigit) = true
      · refine ⟨a, b, c, d, rest, rfl, ?_, hd⟩
        simp only [fourDigitsAt, hd, if_true] at h
        injection h with h1
        exact h1.symm
      · simp [fourDigitsAt, hd] at h

theorem scanFourDigits_some_shape {l : List Char} {r : String}
    (h : scanFourDigits l = some r) :
    ∃ a b c d, r = String.mk [a, b, c, d] := by
  induction l with
  | nil => simp [scanFourDigits] at h
  | cons x xs ih =>
      unfold scanFourDigits at h
      cases hf : fourDigitsAt (x :: xs) with
      | some r1 =>
          rw [hf] at h
          injection h with h1
          obtain ⟨a, b, c, d, rest, _, hr, _⟩ := fourDigitsAt_some hf
          exact ⟨a, b, c, d, h1 ▸ hr⟩
      | none =>
          rw [hf] at h
          exact ih h

theorem extract_some_ne_empty {stem r : String}
    (h : extract_date_from_filename stem = some r) : r ≠ "" := by
  obtain ⟨a, b, c, d, hr⟩ := scanFourDigits_some_shape h
  subst hr
  intro he
  have : ([a, b, c, d] : List Char) = [] := congrArg String.data he
  cases this

theorem dateKey_ne_empty (t : DateT) : dateKey t ≠ "" := by
  intro h
  have h1 : (dateKey t).data = [] := congrArg String.data h
  have h2 : (dateKey t).data =
      ((((toString t.year).data ++ ['-']) ++ (pad2 t.month).data) ++ ['-']) ++
        (pad2 t.day).data := rfl
  rw [h2] at h1
  rcases List.append_eq_nil.mp h1 with ⟨h3, _⟩
  rcases List.append_eq_nil.mp h3 with ⟨_, h5⟩
  cases h5

theorem sampleRaster_date (ds : RasterDataset) (step : Nat) (d s : String)
    (ft : Feat) (h : ft ∈ sampleRaster ds step d s) :
    alook ft.props "date" = some (.vstr d) := by
  unfold sampleRaster at h
  rw [List.mem_flatMap] at h
  obtain ⟨y, _, hy⟩ := h
  rw [List.mem_filterMap] at hy
  obtain ⟨x, _, hx⟩ := hy
  by_cases hb : ds.band y x > 0
  · simp only [hb, if_true, Option.some.injEq] at hx
    rw [← hx]
    simp [alook]
  · simp [hb] at hx

theorem applyCrsPoints_props (crs : Option String) (l : List Feat) (ft : Feat)
    (h : ft ∈ applyCrsPoints crs l) : ∃ ft0, ft0 ∈ l ∧ ft.props = ft0.props := by
  cases crs with
  | none => exact ⟨ft, h, rfl⟩
  | some c =>
      by_cases hc : c = "EPSG:4326"
      · rw [applyCrsPoints, hc] at h
        simp only [if_true] at h
        exact ⟨ft, h, rfl⟩
      · rw [applyCrsPoints] at h
        simp only [hc, if_false] at h
        rw [List.mem_map] at h
        obtain ⟨ft0, hm, he⟩ := h
        refine ⟨ft0, hm, ?_⟩
        rw [← he]
        cases hg : ft0.geom <;> simp

/-- C7 counterexample: a transit-counts record carrying a passthrough
attribute literally named "date" with an empty value: the emitted feature's
date property is the empty string, not the partition date — the passthrough
spread overwrites the curated date. The claim's "the Feature's date property
is present and non-empty" fails. -/
theorem feature_date_nonempty_counterexample :
    buildTransitFeature none "BaseDateTime" "2023-05-01"
        ⟨"g", [("date", PyVal.vstr "")]⟩ =
      .ok ⟨.tok "g",
        [("date", .vstr ""), ("vessel_count", .vnum 0),
         ("transit_count", .vnum 0)]⟩ ∧
    (buildVesselFeature none "TIMESTAMP" "2023-05-01"
        (⟨2023, 5, 1⟩, ⟨"g", [("date", PyVal.vstr "")]⟩)).map
      (fun ft => alook ft.props "date") = .ok (some (.vstr "")) := by
  constructor
  · rfl
  · rfl

/-- C7 (amended): a grouped-path feature's date property equals the (non-empty)
partition key provided the source record carries no attribute named "date" — a
passthrough attribute of that name overwrites the curated date and may leave it
empty or arbitrary — and raster-path features always carry the non-empty
filename-derived (or current-year) date. -/
theorem feature_date_amended :
    (∀ (crs : Option String) (tf k : String) (r : VRecord) (ft : Feat),
      alook r.attrs "date" = none →
      buildTransitFeature crs tf k r = .ok ft →
      alook ft.props "date" = some (.vstr k)) ∧
    (∀ (crs : Option String) (tf k : String) (p : DateT × VRecord) (ft : Feat),
      alook p.2.attrs "date" = none →
      buildVesselFeature crs tf k p = .ok ft →
      alook ft.props "date" = some (.vstr k)) ∧
    (∀ t : DateT, dateKey t ≠ "") ∧
    (∀ (ds : RasterDataset) (step : Nat) (d s : String) (ft : Feat),
      ft ∈ primaryFeatures ds step d s →
      alook ft.props "date" = some (.vstr d)) ∧
    (∀ (rows : List (Rat × Rat × Int)) (d s : String) (ft : Feat),
      ft ∈ fallbackFeatures rows d s →
      alook ft.props "date" = some (.vstr d)) ∧
    (∀ (stem ny : String), ny ≠ "" →
      (extract_date_from_filename stem).getD ny ≠ "") := by
  refine ⟨?_, ?_, dateKey_ne_empty, ?_, ?_, ?_⟩
  · intro crs tf k r ft habs hft
    cases hv : pyInt (getAttr r.attrs "VesselCount" (.vnum 0)) with
    | error e => simp [buildTransitFeature, hv] at hft
    | ok nv =>
    cases ht : pyInt (getAttr r.attrs "TransitCount" (.vnum 0)) with
    | error e => simp [buildTransitFeature, hv, ht] at hft
    | ok nt =>
        simp only [buildTransitFeature, hv, ht, Except.ok.injEq] at hft
        rw [← hft]
        have hp : alook (r.attrs.filter
            (fun kv => kv.1 ∉ excludedTransit tf)) "date" = none :=
          alook_filter_none r.attrs _ "date" habs
        rw [alook_dictUnion_of_none _ _ _ hp]
        simp [alook]
  · intro crs tf k p ft habs hft
    cases hv : buildVesselInfo p.2.attrs with
    | error e => simp [buildVesselFeature, hv] at hft
    | ok vi =>
        simp only [buildVesselFeature, hv, Except.ok.injEq] at hft
        rw [← hft]
        have hp : alook (p.2.attrs.filter
            (fun kv => kv.1 ∉ ("geometry" :: tf :: vesselInfoKeys))) "date"
            = none := alook_filter_none p.2.attrs _ "date" habs
        rw [alook_dictUnion_of_none _ _ _ hp]
        have hvi : alook (vesselInfoDict vi) "date" = none := by
          simp [vesselInfoDict, alook]
        rw [alook_dictUnion_of_none _ _ _ hvi]
        simp [alook]
  · intro ds step d s ft hm
    obtain ⟨ft0, hm0, hprops⟩ := applyCrsPoints_props ds.crs _ ft hm
    rw [hprops]
    exact sampleRaster_date ds step d s ft0 hm0
  · intro rows d s ft hm
    unfold fallbackFeatures at hm
    rw [List.mem_map] at hm
    obtain ⟨row, _, he⟩ := hm
    rw [← he]
    simp [csvFeature, alook]
  · intro stem ny hny
    cases he : extract_date_from_filename stem with
    | none => simpa using hny
    | some r => simpa using extract_some_ne_empty he

/-- C7 witness: concrete exercises of the amended clauses. -/
theorem feature_date_amended_witness :
    (∀ ft : Feat,
      buildTransitFeature none "BaseDateTime" "2023-05-01" ⟨"g", []⟩ = .ok ft →
      alook ft.props "date" = some (.vstr "2023-05-01")) ∧
    dateKey ⟨2023, 5, 1⟩ ≠ "" ∧
    (∀ ft : Feat, ft ∈ primaryFeatures rasterPos 10 "2023" "p.tif" →
      alook ft.props "date" = some (.vstr "2023")) ∧
    (extract_date_from_filename "noyear").getD "2025" ≠ "" :=
  ⟨fun ft => feature_date_amended.1 none "BaseDateTime" "2023-05-01"
      ⟨"g", []⟩ ft rfl,
   feature_date_amended.2.2.1 ⟨2023, 5, 1⟩,
   fun ft => feature_date_amended.2.2.2.1 rasterPos 10 "2023" "p.tif" ft,
   feature_date_amended.2.2.2.2.2 "noyear" "2025" (by decide)⟩

theorem scanFourDigits_none_iff (l : List Char) :
    scanFourDigits l = none ↔ ∀ i, fourDigitsAt (l.drop i) = none := by
  induction l with
  | nil =>
      constructor
      · intro _ i
        simp [fourDigitsAt]
      · intro _
        rfl
  | cons x xs ih =>
      unfold scanFourDigits
      cases hf : fourDigitsAt (x :: xs) with
      | some r =>
          constructor
          · intro h
            cases h
          · intro h
            have h0 := h 0
            rw [List.drop_zero] at h0
            rw [h0] at hf
            cases hf
      | none =>
          rw [ih]
          constructor
          · intro h i
            cases i with
            | zero => simpa using hf
            | succ j => simpa [List.drop_succ_cons] using h j
          · intro h j
            simpa [List.drop_succ_cons] using h (j + 1)

theorem scanFourDigits_some_iff (l : List Char) (r : String)
    (h : scanFourDigits l = some r) :
    ∃ i, fourDigitsAt (l.drop i) = some r ∧
      ∀ j, j < i → fourDigitsAt (l.drop j) = none := by
  induction l with
  | nil => cases h
  | cons x xs ih =>
      unfold scanFourDigits at h
      cases hf : fourDigitsAt (x :: xs) with
      | some r1 =>
          rw [hf] at h
          injection h with h1
          subst h1
          exact ⟨0, by simpa using hf, fun j hj => absurd hj (Nat.not_lt_zero j)⟩
      | none =>
          rw [hf] at h
          obtain ⟨i, hi, hmin⟩ := ih h
          refine ⟨i + 1, by simpa [List.drop_succ_cons] using hi, ?_⟩
          intro j hj
          cases j with
          | zero => simpa using hf
          | succ j0 =>
              have := hmin j0 (Nat.lt_of_succ_lt_succ hj)
              simpa [List.drop_succ_cons] using this

/-- C5 counterexample: the stem "x12345y" contains one five-digit run and
hence no run of exactly four consecutive digits, yet resolution succeeds with
"1234" (the leftmost four-digit window of the longer run) instead of failing;
downstream, a shapefile with this stem and no temporal field is processed
under the key "1234", not treated as fatal. -/
theorem filename_key_counterexample :
    extract_date_from_filename "x12345y" = some "1234" ∧
    specExactFourRun "x12345y" = none ∧
    process_shapefile "x12345y" ⟨none, [], []⟩ "BaseDateTime" [] =
      ([(transitGroupOut "1234", [])], none) := by
  refine ⟨by decide, by decide, by decide⟩

/-- C5 (amended): filename key resolution returns the four digits at the
leftmost position where four consecutive digits occur — possibly the prefix
of a longer digit run — used verbatim with no plausibility validation, and
fails exactly when no four consecutive digits occur anywhere in the stem;
when the temporal field is also missing, that failure is fatal for the file. -/
theorem filename_key_amended :
    (∀ stem : String,
      (extract_date_from_filename stem = none ↔
        ∀ i, fourDigitsAt (stem.data.drop i) = none) ∧
      (∀ r, extract_date_from_filename stem = some r →
        ∃ i, fourDigitsAt (stem.data.drop i) = some r ∧
          ∀ j, j < i → fourDigitsAt (stem.data.drop j) = none)) ∧
    (∀ (stem : String) (shp : ShpData) (tf : String) (fs : FS),
      tf ∉ shp.columns → extract_date_from_filename stem = none →
      ∃ e, process_shapefile stem shp tf fs = (fs, some e)) := by
  constructor
  · intro stem
    exact ⟨scanFourDigits_none_iff stem.data,
      fun r => scanFourDigits_some_iff stem.data r⟩
  · intro stem shp tf fs hcol hext
    exact ⟨"Time field " ++ tf ++
      " not found in the data and couldn't extract date from filename",
      by simp [process_shapefile, hcol, hext]⟩

/-- C5 witness: resolution on a real stem yields the leftmost window, and a
stem with no digits plus a missing temporal field fails the file. -/
theorem filename_key_amended_witness :
    (∃ i, fourDigitsAt (("AISVTC2023Atlantic" : String).data.drop i)
        = some "2023" ∧
      ∀ j, j < i →
        fourDigitsAt (("AISVTC2023Atlantic" : String).data.drop j) = none) ∧
    (∃ e, process_shapefile "nodigits" ⟨none, [], []⟩ "BaseDateTime" [] =
      ([], some e)) :=
  ⟨(filename_key_amended.1 "AISVTC2023Atlantic").2 "2023" (by decide),
   filename_key_amended.2 "nodigits" ⟨none, [], []⟩ "BaseDateTime" []
     (by decide) (by decide)⟩

theorem sampleRaster_eq_strided (ds : RasterDataset) (step : Nat)
    (d s : String) :
    sampleRaster ds step d s = (stridedPositive ds step).map (csvFeature d s) := by
  unfold sampleRaster stridedPositive
  rw [List.map_flatMap]
  congr 1
  funext y
  rw [List.map_filterMap]
  congr 1
  funext x
  by_cases hb : ds.band y x > 0
  · simp [hb, csvFeature]
  · simp [hb]

/-- C3 counterexample: for a 1x1 WGS84 raster whose single cell value is -3,
with a faithful per-cell export, the primary sampling path produces an empty
point collection (the value fails the positivity filter) while the fallback
path produces one feature for the very same cell: the two paths' collections
are not equivalent for the same raster input and output path. -/
theorem fallback_equivalence_counterexample :
    rasterNeg.csvXY = some [(1/2, 1/2, -3)] ∧
    primaryFeatures rasterNeg 10 "2023" "n.tif" = [] ∧
    (fallbackFeatures [(1/2, 1/2, -3)] "2023" "n.tif").length = 1 ∧
    primaryFeatures rasterNeg 10 "2023" "n.tif" ≠
      fallbackFeatures [(1/2, 1/2, -3)] "2023" "n.tif" := by
  refine ⟨rfl, rfl, rfl, fun h => absurd (congrArg List.length h) (by decide)⟩

/-- C3 (amended): the fallback path emits exactly one unreprojected point
feature per exported row, regardless of cell value; when the source CRS is
already WGS84 the primary path's collection coincides with the fallback
construction applied to the strided, positive-valued subset of a faithful
per-cell export — so the two paths agree only on that subset, and differ in
general (non-positive or unstrided cells; non-WGS84 CRS, where the primary
reprojects and the fallback does not). -/
theorem fallback_equivalence_amended :
    (∀ (rows : List (Rat × Rat × Int)) (d s : String),
      (fallbackFeatures rows d s).length = rows.length) ∧
    (∀ (ds : RasterDataset) (step : Nat) (d s : String),
      ds.crs = some "EPSG:4326" →
      primaryFeatures ds step d s =
        fallbackFeatures (stridedPositive ds step) d s) := by
  constructor
  · intro rows d s
    simp [fallbackFeatures]
  · intro ds step d s hc
    unfold primaryFeatures applyCrsPoints
    rw [hc]
    simp only [if_true]
    unfold fallbackFeatures
    exact sampleRaster_eq_strided ds step d s

/-- C3 witness: on a 1x1 WGS84 raster with one positive cell, the primary
collection equals the fallback construction over the strided positive subset. -/
theorem fallback_equivalence_amended_witness :
    (fallbackFeatures [(1/2, 1/2, 5)] "2023" "p.tif").length = 1 ∧
    primaryFeatures rasterPos 10 "2023" "p.tif" =
      fallbackFeatures (stridedPositive rasterPos 10) "2023" "p.tif" :=
  ⟨fallback_equivalence_amended.1 [(1/2, 1/2, 5)] "2023" "p.tif",
   fallback_equivalence_amended.2 rasterPos 10 "2023" "p.tif" rfl⟩

theorem str_data_ext {a b : String} (h : a.data = b.data) : a = b := by
  cases a
  cases b
  cases h
  rfl

theorem vesselGroupOut_inj {k k1 : String}
    (h : vesselGroupOut k = vesselGroupOut k1) : k = k1 := by
  have hd : ("vessel_tracks_".data ++ k.data) ++ ".geojson".data =
      ("vessel_tracks_".data ++ k1.data) ++ ".geojson".data :=
    congrArg String.data h
  have h1 := List.append_cancel_right hd
  have h2 := List.append_cancel_left h1
  exact str_data_ext h2

theorem transitGroupOut_inj {k k1 : String}
    (h : transitGroupOut k = transitGroupOut k1) : k = k1 := by
  have hd : ("transit_counts_".data ++ k.data) ++ ".geojson".data =
      ("transit_counts_".data ++ k1.data) ++ ".geojson".data :=
    congrArg String.data h
  have h1 := List.append_cancel_right hd
  have h2 := List.append_cancel_left h1
  exact str_data_ext h2

theorem mem_insortStr {x y : String} {l : List String} :
    x ∈ insortStr y l ↔ x = y ∨ x ∈ l := by
  induction l with
  | nil => simp [insortStr]
  | cons z zs ih =>
      unfold insortStr
      cases hc : strLtB y.data z.data with
      | true => simp [hc]
      | false =>
          simp only [hc, Bool.false_eq_true, if_false, List.mem_cons, ih]
          tauto

theorem insortStr_nodup {y : String} {l : List String} (hy : y ∉ l)
    (hl : l.Nodup) : (insortStr y l).Nodup := by
  induction l with
  | nil => simp [insortStr]
  | cons z zs ih =>
      unfold insortStr
      rcases List.nodup_cons.mp hl with ⟨hz, hzs⟩
      have hyz : ¬ y = z := fun h => hy (h ▸ List.mem_cons_self z zs)
      have hyzs : y ∉ zs := fun h => hy (List.mem_cons_of_mem z h)
      cases hc : strLtB y.data z.data with
      | true =>
          rw [if_pos rfl]
          refine List.nodup_cons.mpr ⟨?_, hl⟩
          simp [hyz, hyzs]
      | false =>
          rw [if_neg Bool.false_ne_true]
          refine List.nodup_cons.mpr ⟨?_, ih hyzs hzs⟩
          rw [mem_insortStr]
          rintro (h1 | h1)
          · exact hyz h1.symm
          · exact hz h1

theorem mem_sortStr {x : String} {l : List String} :
    x ∈ sortStr l ↔ x ∈ l := by
  induction l with
  | nil => simp [sortStr]
  | cons a l ih =>
      have : sortStr (a :: l) = insortStr a (sortStr l) := rfl
      rw [this, mem_insortStr, ih]
      simp

theorem sortStr_nodup {l : List String} (h : l.Nodup) : (sortStr l).Nodup := by
  induction l with
  | nil => simp [sortStr]
  | cons a l ih =>
      rcases List.nodup_cons.mp h with ⟨ha, hl⟩
      have : sortStr (a :: l) = insortStr a (sortStr l) := rfl
      rw [this]
      exact insortStr_nodup (fun hm => ha (mem_sortStr.mp hm)) (ih hl)

theorem dedupFirst_aux_nodup (l acc : List String) (hacc : acc.Nodup) :
    (l.foldl (fun a k => if k ∈ a then a else a ++ [k]) acc).Nodup := by
  induction l generalizing acc with
  | nil => exact hacc
  | cons a l ih =>
      rw [List.foldl_cons]
      by_cases hm : a ∈ acc
      · rw [if_pos hm]
        exact ih acc hacc
      · rw [if_neg hm]
        refine ih (acc ++ [a]) ?_
        simp [List.nodup_append, hacc, hm]

theorem dedupFirst_nodup (l : List String) : (dedupFirst l).Nodup :=
  dedupFirst_aux_nodup l [] List.nodup_nil

theorem groupKeys_nodup (recs : List (DateT × VRecord)) :
    (groupKeys recs).Nodup :=
  sortStr_nodup (dedupFirst_nodup _)

theorem vesselGroups_all_fresh (force : Bool) (crs : Option String)
    (tf : String) (recs : List (DateT × VRecord)) (ks : List String)
    (fs : FS) (c : Counts) (fs1 : FS) (c1 : Counts)
    (hnodup : ks.Nodup)
    (hfresh : ∀ k, k ∈ ks → fsExists fs (vesselGroupOut k) = false)
    (hok : vesselProcessGroups force crs tf recs ks fs c = (fs1, c1, none)) :
    c1.processed = c.processed + ks.length ∧ c1.skipped = c.skipped := by
  induction ks generalizing fs c with
  | nil =>
      unfold vesselProcessGroups at hok
      injection hok with h1 h2
      injection h2 with h2 h3
      subst h2
      simp
  | cons k ks ih =>
      rcases List.nodup_cons.mp hnodup with ⟨hk, hks⟩
      have hx : fsExists fs (vesselGroupOut k) = false :=
        hfresh k (List.mem_cons_self k ks)
      unfold vesselProcessGroups at hok
      cases hm : (groupOf k recs).mapM (buildVesselFeature crs tf k) with
      | error e =>
          rw [show vesselProcessGroup force crs tf k (groupOf k recs) fs c =
              (fs, c, some e) by
            simp only [vesselProcessGroup, hx, Bool.false_and,
              Bool.false_eq_true, if_false]
            rw [hm]] at hok
          cases hok
      | ok feats =>
          rw [show vesselProcessGroup force crs tf k (groupOf k recs) fs c =
              (alins fs (vesselGroupOut k) feats,
               ⟨c.processed + 1, c.skipped, c.errors⟩, none) by
            simp only [vesselProcessGroup, hx, Bool.false_and,
              Bool.false_eq_true, if_false]
            rw [hm]] at hok
          have hfresh1 : ∀ k1, k1 ∈ ks →
              fsExists (alins fs (vesselGroupOut k) feats)
                (vesselGroupOut k1) = false := by
            intro k1 hk1
            rw [fsExists_alins]
            have hne : ¬ vesselGroupOut k1 = vesselGroupOut k := by
              intro he
              exact hk ((vesselGroupOut_inj he) ▸ hk1)
            simp [hne, hfresh k1 (List.mem_cons_of_mem k hk1)]
          have := ih _ _ hks hfresh1 hok
          constructor
          · rw [this.1]
            simp
            omega
          · rw [this.2]

theorem vesselGroups_all_exist (crs : Option String) (tf : String)
    (recs : List (DateT × VRecord)) (ks : List String) (fs : FS) (c : Counts)
    (hex : ∀ k, k ∈ ks → fsExists fs (vesselGroupOut k) = true) :
    vesselProcessGroups false crs tf recs ks fs c =
      (fs, ⟨c.processed, c.skipped + ks.length, c.errors⟩, none) := by
  induction ks generalizing c with
  | nil =>
      unfold vesselProcessGroups
      simp
  | cons k ks ih =>
      have hx : fsExists fs (vesselGroupOut k) = true :=
        hex k (List.mem_cons_self k ks)
      unfold vesselProcessGroups
      rw [show vesselProcessGroup false crs tf k (groupOf k recs) fs c =
          (fs, ⟨c.processed, c.skipped + 1, c.errors⟩, none) by
        simp [vesselProcessGroup, hx]]
      show vesselProcessGroups false crs tf recs ks fs
          ⟨c.processed, c.skipped + 1, c.errors⟩ =
        (fs, ⟨c.processed, c.skipped + (k :: ks).length, c.errors⟩, none)
      rw [ih ⟨c.processed, c.skipped + 1, c.errors⟩
        (fun k1 hk1 => hex k1 (List.mem_cons_of_mem k hk1))]
      have h9 : c.skipped + 1 + ks.length = c.skipped + (ks.length + 1) := by
        omega
      simp [h9]

/-- C10: the transit-counts driver increments processed exactly once per
error-free input file, however many date-group artifacts were written; the
vessel-tracks driver moves its counters once per date group: on a fresh output
directory an error-free vessel file whose records span the distinct dates in
groupKeys adds exactly that many to processed, and when every group target
already exists it adds that many to skipped and none to processed. -/
theorem counter_granularity :
    (∀ (force : Bool) (ny tf : String) (st : RunState) (f : InputFile)
        (shp : ShpData) (fs1 : FS),
      transitGateHit st.fs force f = false →
      lowerExt f = ".shp" →
      readVec f = .ok shp →
      process_shapefile f.stem shp tf st.fs = (fs1, none) →
      transitStep force ny tf st f =
        ⟨fs1, ⟨st.counts.processed + 1, st.counts.skipped, st.counts.errors⟩⟩) ∧
    (∀ (force : Bool) (crs : Option String) (tf : String)
        (recs : List (DateT × VRecord)) (fs fs1 : FS) (c c1 : Counts),
      (∀ k, k ∈ groupKeys recs → fsExists fs (vesselGroupOut k) = false) →
      vesselProcessGroups force crs tf recs (groupKeys recs) fs c =
        (fs1, c1, none) →
      c1.processed = c.processed + (groupKeys recs).length ∧
      c1.skipped = c.skipped) ∧
    (∀ (crs : Option String) (tf : String) (recs : List (DateT × VRecord))
        (ks : List String) (fs : FS) (c : Counts),
      (∀ k, k ∈ ks → fsExists fs (vesselGroupOut k) = true) →
      vesselProcessGroups false crs tf recs ks fs c =
        (fs, ⟨c.processed, c.skipped + ks.length, c.errors⟩, none)) := by
  refine ⟨?_, ?_, vesselGroups_all_exist⟩
  · intro force ny tf st f shp fs1 hgate hext hread hok
    simp [transitStep, hgate, hext, hread, hok]
  · intro force crs tf recs fs fs1 c c1 hfresh hok
    exact vesselGroups_all_fresh force crs tf recs (groupKeys recs) fs c fs1 c1
      (groupKeys_nodup recs) hfresh hok

/-- C10 witness: a transit file spanning two dates counts processed once while
writing two artifacts; a fresh vessel run over records spanning two dates
counts processed twice; a re-run over one existing vessel group counts one
skip. -/
theorem counter_granularity_witness :
    transitStep false "2025" "BaseDateTime" ⟨[], ⟨0, 0, 0⟩⟩ fileCounts2 =
      ⟨[(transitGroupOut "2023-05-01",
          [⟨.tok "g", [("date", .vstr "2023-05-01"), ("vessel_count", .vnum 0),
            ("transit_count", .vnum 0)]⟩]),
        (transitGroupOut "2023-05-02",
          [⟨.tok "g", [("date", .vstr "2023-05-02"), ("vessel_count", .vnum 0),
            ("transit_count", .vnum 0)]⟩])], ⟨1, 0, 0⟩⟩ ∧
    ((vesselProcessGroups false (some "EPSG:4326") "TIMESTAMP"
        [(⟨2023, 5, 1⟩, recTrk 1), (⟨2023, 5, 2⟩, recTrk 2)]
        (groupKeys [(⟨2023, 5, 1⟩, recTrk 1), (⟨2023, 5, 2⟩, recTrk 2)])
        [] ⟨0, 0, 0⟩).2.1.processed =
      0 + (groupKeys [(⟨2023, 5, 1⟩, recTrk 1),
        (⟨2023, 5, 2⟩, recTrk 2)]).length ∧
     (vesselProcessGroups false (some "EPSG:4326") "TIMESTAMP"
        [(⟨2023, 5, 1⟩, recTrk 1), (⟨2023, 5, 2⟩, recTrk 2)]
        (groupKeys [(⟨2023, 5, 1⟩, recTrk 1), (⟨2023, 5, 2⟩, recTrk 2)])
        [] ⟨0, 0, 0⟩).2.1.skipped = 0) ∧
    vesselProcessGroups false none "TIMESTAMP" [] ["2023-05-01"]
        [(vesselGroupOut "2023-05-01", [])] ⟨0, 0, 0⟩ =
      ([(vesselGroupOut "2023-05-01", [])], ⟨0, 0 + 1, 0⟩, none) :=
  ⟨counter_granularity.1 false "2025" "BaseDateTime" ⟨[], ⟨0, 0, 0⟩⟩
     fileCounts2 ⟨some "EPSG:4326", ["BaseDateTime"], [recCnt 1, recCnt 2]⟩ _
     (by decide) (by decide) rfl (by decide),
   counter_granularity.2.1 false (some "EPSG:4326") "TIMESTAMP"
     [(⟨2023, 5, 1⟩, recTrk 1), (⟨2023, 5, 2⟩, recTrk 2)] [] _ ⟨0, 0, 0⟩ _
     (by decide) rfl,
   counter_granularity.2.2 none "TIMESTAMP" [] ["2023-05-01"]
     [(vesselGroupOut "2023-05-01", [])] ⟨0, 0, 0⟩ (by decide)⟩

theorem transitProcessGroups_fsLe (crs : Option String) (tf : String)
    (recs : List (DateT × VRecord)) (ks : List String) (fs : FS) :
    fsLe fs (transitProcessGroups crs tf recs ks fs).1 := by
  induction ks generalizing fs with
  | nil => exact fsLe_refl fs
  | cons k ks ih =>
      unfold transitProcessGroups
      cases hx : fsExists fs (transitGroupOut k) with
      | true =>
          rw [show transitProcessGroup crs tf k (groupOf k recs) fs =
              (fs, none) by simp [transitProcessGroup, hx]]
          exact ih fs
      | false =>
          cases hm : (groupOf k recs).mapM
              (fun p => buildTransitFeature crs tf k p.2) with
          | error e =>
              rw [show transitProcessGroup crs tf k (groupOf k recs) fs =
                  (fs, some e) by
                simp only [transitProcessGroup, hx, Bool.false_eq_true,
                  if_false]
                rw [hm]]
              exact fsLe_refl fs
          | ok feats =>
              rw [show transitProcessGroup crs tf k (groupOf k recs) fs =
                  (alins fs (transitGroupOut k) feats, none) by
                simp only [transitProcessGroup, hx, Bool.false_eq_true,
                  if_false]
                rw [hm]]
              exact fsLe_trans (fsLe_alins_of_not_exists feats hx)
                (ih (alins fs (transitGroupOut k) feats))

theorem process_shapefile_fsLe (stem : String) (shp : ShpData) (tf : String)
    (fs : FS)
    (hguard : ∀ d, extract_date_from_filename stem = some d →
      tf ∉ shp.columns → fsExists fs (transitGroupOut d) = false) :
    fsLe fs (process_shapefile stem shp tf fs).1 := by
  unfold process_shapefile
  by_cases hcol : tf ∈ shp.columns
  · simp only [hcol, if_true]
    cases hp : parseTimes tf shp.records with
    | error e => exact fsLe_refl fs
    | ok recs => exact transitProcessGroups_fsLe shp.crs tf recs (groupKeys recs) fs
  · simp only [hcol, if_false]
    cases hext : extract_date_from_filename stem with
    | some d =>
        exact fsLe_alins_of_not_exists _ (hguard d hext hcol)
    | none => exact fsLe_refl fs

theorem process_geotiff_fsLe (ny : String) (ds : RasterDataset)
    (stem name : String) (fs : FS) :
    fsLe fs (process_geotiff ny ds stem name fs).1 := by
  simp only [process_geotiff]
  cases hex : fsExists fs
      (geotiffOut ((extract_date_from_filename stem).getD ny) stem) with
  | true => exact fsLe_refl fs
  | false =>
      simp only [Bool.false_eq_true, if_false, tryWithFallback,
        primaryRasterPath, convert_tiff_to_point_cloud, hex]
      cases hread : ds.readable with
      | true =>
          simp only [if_true]
          exact fsLe_alins_of_not_exists _ hex
      | false =>
          simp only [Bool.false_eq_true, if_false]
          cases hcsv : ds.csvXY with
          | some rows =>
              simp only [hcsv]
              exact fsLe_alins_of_not_exists _ hex
          | none =>
              simp only [hcsv]
              exact fsLe_refl fs

theorem transitStep_fsLe (ny tf : String) (st : RunState) (f : InputFile) :
    fsLe st.fs (transitStep false ny tf st f).fs := by
  unfold transitStep
  cases hgate : transitGateHit st.fs false f with
  | true => exact fsLe_refl st.fs
  | false =>
      simp only [Bool.false_eq_true, if_false]
      by_cases hshp : lowerExt f = ".shp"
      · simp only [hshp, if_true]
        cases hr : readVec f with
        | error e => exact fsLe_refl st.fs
        | ok shp =>
            have hguard : ∀ d, extract_date_from_filename f.stem = some d →
                tf ∉ shp.columns → fsExists st.fs (transitGroupOut d) = false := by
              intro d hd _
              unfold transitGateHit transitGatePath at hgate
              rw [if_pos hshp, hd] at hgate
              simpa using hgate
            have hle := process_shapefile_fsLe f.stem shp tf st.fs hguard
            show fsLe st.fs
              (dispatchResult st (process_shapefile f.stem shp tf st.fs)).fs
            cases hps : process_shapefile f.stem shp tf st.fs with
            | mk fs1 res =>
                rw [hps] at hle
                cases res <;> simpa using hle
      · simp only [hshp, if_false]
        by_cases htif : lowerExt f = ".tif"
        · simp only [htif, if_true]
          cases hr : readRas f with
          | error e => exact fsLe_refl st.fs
          | ok ds =>
              have hle := process_geotiff_fsLe ny ds f.stem (fileName f) st.fs
              show fsLe st.fs
                (dispatchResult st
                  (process_geotiff ny ds f.stem (fileName f) st.fs)).fs
              cases hpg : process_geotiff ny ds f.stem (fileName f) st.fs with
              | mk fs1 res =>
                  rw [hpg] at hle
                  cases res <;> simpa using hle
        · simp only [htif, if_false]
          exact fsLe_refl st.fs

theorem transitRun_fsLe (ny tf : String) (files : List InputFile)
    (st : RunState) :
    fsLe st.fs (process_transit_counts false ny tf files st).fs := by
  induction files generalizing st with
  | nil => exact fsLe_refl st.fs
  | cons g rest ih =>
      exact fsLe_trans (transitStep_fsLe ny tf st g)
        (ih (transitStep false ny tf st g))

theorem transitStep_errors_ge (force : Bool) (ny tf : String) (st : RunState)
    (f : InputFile) :
    st.counts.errors ≤ (transitStep force ny tf st f).counts.errors := by
  unfold transitStep
  cases hgate : transitGateHit st.fs force f with
  | true => simp
  | false =>
      simp only [Bool.false_eq_true, if_false]
      by_cases hshp : lowerExt f = ".shp"
      · simp only [hshp, if_true]
        cases hr : readVec f with
        | error e => simp
        | ok shp =>
            show st.counts.errors ≤
              (dispatchResult st
                (process_shapefile f.stem shp tf st.fs)).counts.errors
            cases hps : process_shapefile f.stem shp tf st.fs with
            | mk fs1 res => cases res <;> simp
      · simp only [hshp, if_false]
        by_cases htif : lowerExt f = ".tif"
        · simp only [htif, if_true]
          cases hr : readRas f with
          | error e => simp
          | ok ds =>
              show st.counts.errors ≤
                (dispatchResult st
                  (process_geotiff ny ds f.stem (fileName f) st.fs)).counts.errors
              cases hpg : process_geotiff ny ds f.stem (fileName f) st.fs with
              | mk fs1 res => cases res <;> simp
        · simp [htif]

theorem transitRun_errors_ge (force : Bool) (ny tf : String)
    (files : List InputFile) (st : RunState) :
    st.counts.errors ≤
      (process_transit_counts force ny tf files st).counts.errors := by
  induction files generalizing st with
  | nil => exact Nat.le_refl _
  | cons g rest ih =>
      exact Nat.le_trans (transitStep_errors_ge force ny tf st g)
        (ih (transitStep force ny tf st g))

theorem transitProcessGroups_coverage (crs : Option String) (tf : String)
    (recs : List (DateT × VRecord)) (ks : List String) (fs fs1 : FS)
    (hok : transitProcessGroups crs tf recs ks fs = (fs1, none)) :
    ∀ k, k ∈ ks → fsExists fs1 (transitGroupOut k) = true := by
  induction ks generalizing fs with
  | nil => intro k hk; cases hk
  | cons k ks ih =>
      unfold transitProcessGroups at hok
      cases hx : fsExists fs (transitGroupOut k) with
      | true =>
          rw [show transitProcessGroup crs tf k (groupOf k recs) fs =
              (fs, none) by simp [transitProcessGroup, hx]] at hok
          have hok1 : transitProcessGroups crs tf recs ks fs = (fs1, none) :=
            hok
          intro k1 hk1
          rcases List.mem_cons.mp hk1 with h1 | h1
          · subst h1
            have hle := transitProcessGroups_fsLe crs tf recs ks fs
            rw [hok1] at hle
            exact fsExists_of_fsLe hle hx
          · exact ih fs hok1 k1 h1
      | false =>
          cases hm : (groupOf k recs).mapM
              (fun p => buildTransitFeature crs tf k p.2) with
          | error e =>
              rw [show transitProcessGroup crs tf k (groupOf k recs) fs =
                  (fs, some e) by
                simp only [transitProcessGroup, hx, Bool.false_eq_true,
                  if_false]
                rw [hm]] at hok
              cases hok
          | ok feats =>
              rw [show transitProcessGroup crs tf k (groupOf k recs) fs =
                  (alins fs (transitGroupOut k) feats, none) by
                simp only [transitProcessGroup, hx, Bool.false_eq_true,
                  if_false]
                rw [hm]] at hok
              have hok1 : transitProcessGroups crs tf recs ks
                  (alins fs (transitGroupOut k) feats) = (fs1, none) := hok
              intro k1 hk1
              rcases List.mem_cons.mp hk1 with h1 | h1
              · subst h1
                have hle := transitProcessGroups_fsLe crs tf recs ks
                  (alins fs (transitGroupOut k1) feats)
                rw [hok1] at hle
                refine fsExists_of_fsLe hle ?_
                rw [fsExists_alins]
                simp
              · exact ih (alins fs (transitGroupOut k) feats) hok1 k1 h1

theorem transitProcessGroups_all_exist (crs : Option String) (tf : String)
    (recs : List (DateT × VRecord)) (ks : List String) (fs : FS)
    (hex : ∀ k, k ∈ ks → fsExists fs (transitGroupOut k) = true) :
    transitProcessGroups crs tf recs ks fs = (fs, none) := by
  induction ks with
  | nil => rfl
  | cons k ks ih =>
      unfold transitProcessGroups
      rw [show transitProcessGroup crs tf k (groupOf k recs) fs = (fs, none) by
        simp [transitProcessGroup, hex k (List.mem_cons_self k ks)]]
      exact ih (fun k1 hk1 => hex k1 (List.mem_cons_of_mem k hk1))

theorem process_geotiff_skip (ny : String) (ds : RasterDataset)
    (stem name : String) (fs : FS)
    (hex : fsExists fs
      (geotiffOut ((extract_date_from_filename stem).getD ny) stem) = true) :
    process_geotiff ny ds stem name fs = (fs, none) := by
  unfold process_geotiff
  simp [hex]

theorem process_geotiff_coverage (ny : String) (ds : RasterDataset)
    (stem name : String) (fs fs1 : FS)
    (hok : process_geotiff ny ds stem name fs = (fs1, none)) :
    fsExists fs1
      (geotiffOut ((extract_date_from_filename stem).getD ny) stem) = true := by
  simp only [process_geotiff] at hok
  cases hex : fsExists fs
      (geotiffOut ((extract_date_from_filename stem).getD ny) stem) with
  | true =>
      rw [hex] at hok
      simp only [if_true] at hok
      injection hok with h1 _
      rw [← h1]
      exact hex
  | false =>
      rw [hex] at hok
      simp only [Bool.false_eq_true, if_false, tryWithFallback,
        primaryRasterPath, convert_tiff_to_point_cloud, hex] at hok
      cases hread : ds.readable with
      | true =>
          rw [hread] at hok
          simp only [if_true] at hok
          injection hok with h1 _
          rw [← h1, fsExists_alins]
          simp
      | false =>
          rw [hread] at hok
          simp only [Bool.false_eq_true, if_false] at hok
          cases hcsv : ds.csvXY with
          | some rows =>
              rw [hcsv] at hok
              simp only [] at hok
              injection hok with h1 _
              rw [← h1, fsExists_alins]
              simp
          | none =>
              rw [hcsv] at hok
              cases hok

theorem transitGateHit_mono {fs fs1 : FS} {f : InputFile} (hle : fsLe fs fs1)
    (h : transitGateHit fs false f = true) :
    transitGateHit fs1 false f = true := by
  unfold transitGateHit at *
  cases hp : transitGatePath f with
  | none => rw [hp] at h; cases h
  | some p =>
      rw [hp] at h
      simp only [Bool.not_false, Bool.and_true] at h
      simp only [Bool.not_false, Bool.and_true]
      exact fsExists_of_fsLe hle h

theorem transitGateHit_supported {fs : FS} {force : Bool} {f : InputFile}
    (h : transitGateHit fs force f = true) : transitSupported f = true := by
  unfold transitGateHit transitGatePath at h
  unfold transitSupported
  by_cases hshp : lowerExt f = ".shp"
  · simp [hshp]
  · by_cases htif : lowerExt f = ".tif"
    · simp [htif]
    · rw [if_neg hshp, if_neg htif] at h
      cases h

theorem transitStep_gate_skip (force : Bool) (ny tf : String) (st : RunState)
    (f : InputFile) (h : transitGateHit st.fs force f = true) :
    transitStep force ny tf st f =
      ⟨st.fs, ⟨st.counts.processed, st.counts.skipped + 1, st.counts.errors⟩⟩ := by
  simp [transitStep, h]

theorem transitStep_unsupported (force : Bool) (ny tf : String) (st : RunState)
    (f : InputFile) (h : transitSupported f = false) :
    transitStep force ny tf st f = st := by
  have h1 : ¬ lowerExt f = ".shp" ∧ ¬ lowerExt f = ".tif" := by
    simpa [transitSupported] using h
  simp [transitStep, transitGateHit, transitGatePath, h1.1, h1.2]

theorem transitStep_coverage (ny tf : String) (st : RunState) (f : InputFile)
    (hgate : transitGateHit st.fs false f = false)
    (hnoerr : (transitStep false ny tf st f).counts.errors = st.counts.errors) :
    transitBodyOk tf f ∧
    ∀ p, p ∈ transitInnerOuts ny tf f →
      fsExists (transitStep false ny tf st f).fs p = true := by
  by_cases hshp : lowerExt f = ".shp"
  · have htif : ¬ lowerExt f = ".tif" := by rw [hshp]; decide
    cases hr : readVec f with
    | error e =>
        exfalso
        have : transitStep false ny tf st f = errResult st := by
          simp [transitStep, hgate, hshp, hr]
        rw [this] at hnoerr
        simp [errResult] at hnoerr
    | ok shp =>
        have hstep : transitStep false ny tf st f =
            dispatchResult st (process_shapefile f.stem shp tf st.fs) := by
          simp [transitStep, hgate, hshp, hr]
        by_cases hcol : tf ∈ shp.columns
        · cases hp : parseTimes tf shp.records with
          | error e =>
              exfalso
              have : process_shapefile f.stem shp tf st.fs = (st.fs, some e) := by
                simp [process_shapefile, hcol, hp]
              rw [this] at hstep
              rw [hstep] at hnoerr
              simp [dispatchResult] at hnoerr
          | ok recs =>
              cases hgr : transitProcessGroups shp.crs tf recs (groupKeys recs)
                  st.fs with
              | mk fs1 res =>
                  have hps : process_shapefile f.stem shp tf st.fs =
                      (fs1, res) := by
                    simp [process_shapefile, hcol, hp, hgr]
                  cases res with
                  | some e =>
                      exfalso
                      rw [hps] at hstep
                      rw [hstep] at hnoerr
                      simp [dispatchResult] at hnoerr
                  | none =>
                      constructor
                      · exact ⟨fun _ => ⟨shp, hr, fun _ => ⟨recs, hp⟩,
                          fun hc => absurd hcol hc⟩,
                          fun ht => absurd ht htif⟩
                      · intro p hp1
                        rw [hstep, hps]
                        simp only [dispatchResult]
                        unfold transitInnerOuts at hp1
                        rw [if_pos hshp, hr] at hp1
                        simp only [hcol, if_true, hp] at hp1
                        rw [List.mem_map] at hp1
                        obtain ⟨k, hk, hpk⟩ := hp1
                        rw [← hpk]
                        exact transitProcessGroups_coverage shp.crs tf recs
                          (groupKeys recs) st.fs fs1 hgr k hk
        · cases hext : extract_date_from_filename f.stem with
          | none =>
              exfalso
              have : process_shapefile f.stem shp tf st.fs =
                  (st.fs, some ("Time field " ++ tf ++
                    " not found in the data and couldn't extract date from filename")) := by
                simp [process_shapefile, hcol, hext]
              rw [this] at hstep
              rw [hstep] at hnoerr
              simp [dispatchResult] at hnoerr
          | some d =>
              have hps : process_shapefile f.stem shp tf st.fs =
                  (alins st.fs (transitGroupOut d)
                    (shp.records.map (rawFeature shp.crs)), none) := by
                simp [process_shapefile, hcol, hext]
              constructor
              · exact ⟨fun _ => ⟨shp, hr, fun hc => absurd hc hcol,
                  fun _ => ⟨d, hext⟩⟩, fun ht => absurd ht htif⟩
              · intro p hp1
                rw [hstep, hps]
                simp only [dispatchResult]
                unfold transitInnerOuts at hp1
                rw [if_pos hshp, hr] at hp1
                simp only [hcol, if_false, hext] at hp1
                rcases List.mem_singleton.mp hp1 with h1
                rw [h1, fsExists_alins]
                simp
  · by_cases htif : lowerExt f = ".tif"
    · cases hr : readRas f with
      | error e =>
          exfalso
          have : transitStep false ny tf st f = errResult st := by
            simp [transitStep, hgate, hshp, htif, hr]
          rw [this] at hnoerr
          simp [errResult] at hnoerr
      | ok ds =>
          have hstep : transitStep false ny tf st f =
              dispatchResult st
                (process_geotiff ny ds f.stem (fileName f) st.fs) := by
            simp [transitStep, hgate, hshp, htif, hr]
          cases hpg : process_geotiff ny ds f.stem (fileName f) st.fs with
          | mk fs1 res =>
              cases res with
              | some e =>
                  exfalso
                  rw [hpg] at hstep
                  rw [hstep] at hnoerr
                  simp [dispatchResult] at hnoerr
              | none =>
                  constructor
                  · exact ⟨fun hs => absurd hs hshp, fun _ => ⟨ds, hr⟩⟩
                  · intro p hp1
                    rw [hstep, hpg]
                    simp only [dispatchResult]
                    unfold transitInnerOuts at hp1
                    rw [if_neg hshp, if_pos htif, hr] at hp1
                    rcases List.mem_singleton.mp hp1 with h1
                    rw [h1]
                    exact process_geotiff_coverage ny ds f.stem (fileName f)
                      st.fs fs1 hpg
    · constructor
      · exact ⟨fun hs => absurd hs hshp, fun ht => absurd ht htif⟩
      · intro p hp1
        unfold transitInnerOuts at hp1
        rw [if_neg hshp, if_neg htif] at hp1
        cases hp1

theorem transitStep_rerun (ny tf : String) (fs : FS) (c : Counts)
    (f : InputFile)
    (hsup : transitSupported f = true)
    (hgate : transitGateHit fs false f = false)
    (hbody : transitBodyOk tf f)
    (hcov : ∀ p, p ∈ transitInnerOuts ny tf f → fsExists fs p = true) :
    transitStep false ny tf ⟨fs, c⟩ f =
      ⟨fs, ⟨c.processed + 1, c.skipped, c.errors⟩⟩ := by
  by_cases hshp : lowerExt f = ".shp"
  · obtain ⟨shp, hr, hparse, hnofield⟩ := hbody.1 hshp
    by_cases hcol : tf ∈ shp.columns
    · obtain ⟨recs, hp⟩ := hparse hcol
      have hall : ∀ k, k ∈ groupKeys recs →
          fsExists fs (transitGroupOut k) = true := by
        intro k hk
        apply hcov
        unfold transitInnerOuts
        rw [if_pos hshp, hr]
        simp only [hcol, if_true, hp]
        exact List.mem_map_of_mem transitGroupOut hk
      have hps : process_shapefile f.stem shp tf fs = (fs, none) := by
        simp only [process_shapefile, hcol, if_true, hp]
        exact transitProcessGroups_all_exist shp.crs tf recs (groupKeys recs)
          fs hall
      simp [transitStep, hgate, hshp, hr, hps]
    · obtain ⟨d, hext⟩ := hnofield hcol
      exfalso
      have hin : fsExists fs (transitGroupOut d) = true := by
        apply hcov
        unfold transitInnerOuts
        rw [if_pos hshp, hr]
        simp [hcol, hext]
      unfold transitGateHit transitGatePath at hgate
      rw [if_pos hshp, hext] at hgate
      simp [hin] at hgate
  · have htif : lowerExt f = ".tif" := by
      unfold transitSupported at hsup
      rcases Bool.or_eq_true_iff.mp hsup with h1 | h1
      · exact absurd (of_decide_eq_true h1) hshp
      · exact of_decide_eq_true h1
    obtain ⟨ds, hr⟩ := hbody.2 htif
    have hin : fsExists fs
        (geotiffOut ((extract_date_from_filename f.stem).getD ny) f.stem)
        = true := by
      apply hcov
      unfold transitInnerOuts
      rw [if_neg hshp, if_pos htif, hr]
      exact List.mem_singleton.mpr rfl
    have hpg := process_geotiff_skip ny ds f.stem (fileName f) fs hin
    simp [transitStep, hgate, hshp, htif, hr, hpg]

theorem transitRun_ready (ny tf : String) (files : List InputFile)
    (st : RunState)
    (hE : (process_transit_counts false ny tf files st).counts.errors
      = st.counts.errors) :
    ∀ f, f ∈ files →
      transitReady ny tf (process_transit_counts false ny tf files st).fs f := by
  induction files generalizing st with
  | nil => intro f h; cases h
  | cons g rest ih =>
      have hrun : process_transit_counts false ny tf (g :: rest) st =
          process_transit_counts false ny tf rest
            (transitStep false ny tf st g) := rfl
      have e1 := transitStep_errors_ge false ny tf st g
      have e2 := transitRun_errors_ge false ny tf rest
        (transitStep false ny tf st g)
      rw [hrun] at hE
      have hstep : (transitStep false ny tf st g).counts.errors
          = st.counts.errors := by omega
      have hrest : (process_transit_counts false ny tf rest
          (transitStep false ny tf st g)).counts.errors
          = (transitStep false ny tf st g).counts.errors := by omega
      intro f hf
      rcases List.mem_cons.mp hf with hfg | hfr
      · subst hfg
        have hfsle : fsLe (transitStep false ny tf st f).fs
            (process_transit_counts false ny tf rest
              (transitStep false ny tf st f)).fs :=
          transitRun_fsLe ny tf rest (transitStep false ny tf st f)
        cases hg : transitGateHit st.fs false f with
        | true =>
            left
            rw [hrun]
            have hfs1 : fsLe st.fs (transitStep false ny tf st f).fs :=
              transitStep_fsLe ny tf st f
            exact transitGateHit_mono (fsLe_trans hfs1 hfsle) hg
        | false =>
            right
            have hcov := transitStep_coverage ny tf st f hg hstep
            rw [hrun]
            exact ⟨hcov.1, fun p hp =>
              fsExists_of_fsLe hfsle (hcov.2 p hp)⟩
      · rw [hrun]
        exact ih (transitStep false ny tf st g) hrest f hfr

theorem transitRun_rerun (ny tf : String) (R : FS) (files : List InputFile)
    (c : Counts)
    (hready : ∀ f, f ∈ files → transitReady ny tf R f) :
    process_transit_counts false ny tf files ⟨R, c⟩ =
      ⟨R, ⟨c.processed + (files.filter (fun f =>
             transitSupported f && !transitGateHit R false f)).length,
          c.skipped + (files.filter (fun f =>
             transitGateHit R false f)).length,
          c.errors⟩⟩ := by
  induction files generalizing c with
  | nil => simp [process_transit_counts]
  | cons g rest ih =>
      have hready1 : ∀ f, f ∈ rest → transitReady ny tf R f :=
        fun f hf => hready f (List.mem_cons_of_mem g hf)
      have hrun : process_transit_counts false ny tf (g :: rest) ⟨R, c⟩ =
          process_transit_counts false ny tf rest
            (transitStep false ny tf ⟨R, c⟩ g) := rfl
      cases hg : transitGateHit R false g with
      | true =>
          have hstep : transitStep false ny tf ⟨R, c⟩ g =
              ⟨R, ⟨c.processed, c.skipped + 1, c.errors⟩⟩ :=
            transitStep_gate_skip false ny tf ⟨R, c⟩ g hg
          have hf1 : (g :: rest).filter (fun f =>
              transitSupported f && !transitGateHit R false f) =
              rest.filter (fun f =>
                transitSupported f && !transitGateHit R false f) := by
            rw [List.filter_cons]
            have hb : (transitSupported g && !transitGateHit R false g)
                = false := by rw [hg]; simp
            simp [hb]
          have hf2 : (g :: rest).filter (fun f => transitGateHit R false f) =
              g :: rest.filter (fun f => transitGateHit R false f) := by
            rw [List.filter_cons]
            simp [hg]
          rw [hrun, hstep, ih ⟨c.processed, c.skipped + 1, c.errors⟩ hready1,
            hf1, hf2, List.length_cons]
          simp only [RunState.mk.injEq, Counts.mk.injEq]
          exact ⟨trivial, trivial, by omega, trivial⟩
      | false =>
          have hf2 : (g :: rest).filter (fun f => transitGateHit R false f) =
              rest.filter (fun f => transitGateHit R false f) := by
            rw [List.filter_cons]
            simp [hg]
          cases hsup : transitSupported g with
          | false =>
              have hstep := transitStep_unsupported false ny tf ⟨R, c⟩ g hsup
              have hf1 : (g :: rest).filter (fun f =>
                  transitSupported f && !transitGateHit R false f) =
                  rest.filter (fun f =>
                    transitSupported f && !transitGateHit R false f) := by
                rw [List.filter_cons]
                have hb : (transitSupported g && !transitGateHit R false g)
                    = false := by rw [hsup]; simp
                simp [hb]
              rw [hrun, hstep, ih c hready1, hf1, hf2]
          | true =>
              have hrdy := hready g (List.mem_cons_self g rest)
              rcases hrdy with h1 | h1
              · rw [h1] at hg; cases hg
              · have hstep := transitStep_rerun ny tf R c g hsup hg h1.1 h1.2
                have hf1 : (g :: rest).filter (fun f =>
                    transitSupported f && !transitGateHit R false f) =
                    g :: rest.filter (fun f =>
                      transitSupported f && !transitGateHit R false f) := by
                  rw [List.filter_cons]
                  have hb : (transitSupported g && !transitGateHit R false g)
                      = true := by rw [hsup, hg]; simp
                  simp [hb]
                rw [hrun, hstep,
                  ih ⟨c.processed + 1, c.skipped, c.errors⟩ hready1,
                  hf1, hf2, List.length_cons]
                simp only [RunState.mk.injEq, Counts.mk.injEq]
                exact ⟨trivial, by omega, trivial, trivial⟩

theorem vesselDispatch_fs (r : FS × Counts × Option String) :
    (vesselDispatch r).fs = r.1 := by
  rcases r with ⟨fs1, c1, e⟩
  cases e <;> rfl

theorem vesselGroups_fsLe (crs : Option String) (tf : String)
    (recs : List (DateT × VRecord)) (ks : List String) (fs : FS) (c : Counts) :
    fsLe fs (vesselProcessGroups false crs tf recs ks fs c).1 := by
  induction ks generalizing fs c with
  | nil => exact fsLe_refl fs
  | cons k ks ih =>
      unfold vesselProcessGroups
      cases hx : fsExists fs (vesselGroupOut k) with
      | true =>
          rw [show vesselProcessGroup false crs tf k (groupOf k recs) fs c =
              (fs, ⟨c.processed, c.skipped + 1, c.errors⟩, none) by
            simp [vesselProcessGroup, hx]]
          exact ih fs ⟨c.processed, c.skipped + 1, c.errors⟩
      | false =>
          cases hm : (groupOf k recs).mapM (buildVesselFeature crs tf k) with
          | error e =>
              rw [show vesselProcessGroup false crs tf k (groupOf k recs) fs c =
                  (fs, c, some e) by
                simp only [vesselProcessGroup, hx, Bool.false_and,
                  Bool.false_eq_true, if_false]
                rw [hm]]
              exact fsLe_refl fs
          | ok feats =>
              rw [show vesselProcessGroup false crs tf k (groupOf k recs) fs c =
                  (alins fs (vesselGroupOut k) feats,
                   ⟨c.processed + 1, c.skipped, c.errors⟩, none) by
                simp only [vesselProcessGroup, hx, Bool.false_and,
                  Bool.false_eq_true, if_false]
                rw [hm]]
              exact fsLe_trans (fsLe_alins_of_not_exists feats hx)
                (ih (alins fs (vesselGroupOut k) feats)
                  ⟨c.processed + 1, c.skipped, c.errors⟩)

theorem vesselGroups_errors_const (force : Bool) (crs : Option String)
    (tf : String) (recs : List (DateT × VRecord)) (ks : List String)
    (fs : FS) (c : Counts) :
    (vesselProcessGroups force crs tf recs ks fs c).2.1.errors = c.errors := by
  induction ks generalizing fs c with
  | nil => rfl
  | cons k ks ih =>
      unfold vesselProcessGroups
      cases hx : fsExists fs (vesselGroupOut k) && !force with
      | true =>
          rw [show vesselProcessGroup force crs tf k (groupOf k recs) fs c =
              (fs, ⟨c.processed, c.skipped + 1, c.errors⟩, none) by
            simp [vesselProcessGroup, hx]]
          exact ih fs ⟨c.processed, c.skipped + 1, c.errors⟩
      | false =>
          cases hm : (groupOf k recs).mapM (buildVesselFeature crs tf k) with
          | error e =>
              rw [show vesselProcessGroup force crs tf k (groupOf k recs) fs c =
                  (fs, c, some e) by
                simp only [vesselProcessGroup, hx, Bool.false_eq_true, if_false]
                rw [hm]]
          | ok feats =>
              rw [show vesselProcessGroup force crs tf k (groupOf k recs) fs c =
                  (alins fs (vesselGroupOut k) feats,
                   ⟨c.processed + 1, c.skipped, c.errors⟩, none) by
                simp only [vesselProcessGroup, hx, Bool.false_eq_true, if_false]
                rw [hm]]
              exact ih (alins fs (vesselGroupOut k) feats)
                ⟨c.processed + 1, c.skipped, c.errors⟩

theorem vesselGroups_coverage (crs : Option String) (tf : String)
    (recs : List (DateT × VRecord)) (ks : List String) (fs fs1 : FS)
    (c c1 : Counts)
    (hok : vesselProcessGroups false crs tf recs ks fs c = (fs1, c1, none)) :
    ∀ k, k ∈ ks → fsExists fs1 (vesselGroupOut k) = true := by
  induction ks generalizing fs c with
  | nil => intro k hk; cases hk
  | cons k ks ih =>
      unfold vesselProcessGroups at hok
      cases hx : fsExists fs (vesselGroupOut k) with
      | true =>
          rw [show vesselProcessGroup false crs tf k (groupOf k recs) fs c =
              (fs, ⟨c.processed, c.skipped + 1, c.errors⟩, none) by
            simp [vesselProcessGroup, hx]] at hok
          have hok1 : vesselProcessGroups false crs tf recs ks fs
              ⟨c.processed, c.skipped + 1, c.errors⟩ = (fs1, c1, none) := hok
          intro k1 hk1
          rcases List.mem_cons.mp hk1 with h1 | h1
          · subst h1
            have hle := vesselGroups_fsLe crs tf recs ks fs
              ⟨c.processed, c.skipped + 1, c.errors⟩
            rw [hok1] at hle
            exact fsExists_of_fsLe hle hx
          · exact ih fs ⟨c.processed, c.skipped + 1, c.errors⟩ hok1 k1 h1
      | false =>
          cases hm : (groupOf k recs).mapM (buildVesselFeature crs tf k) with
          | error e =>
              rw [show vesselProcessGroup false crs tf k (groupOf k recs) fs c =
                  (fs, c, some e) by
                simp only [vesselProcessGroup, hx, Bool.false_and,
                  Bool.false_eq_true, if_false]
                rw [hm]] at hok
              cases hok
          | ok feats =>
              rw [show vesselProcessGroup false crs tf k (groupOf k recs) fs c =
                  (alins fs (vesselGroupOut k) feats,
                   ⟨c.processed + 1, c.skipped, c.errors⟩, none) by
                simp only [vesselProcessGroup, hx, Bool.false_and,
                  Bool.false_eq_true, if_false]
                rw [hm]] at hok
              have hok1 : vesselProcessGroups false crs tf recs ks
                  (alins fs (vesselGroupOut k) feats)
                  ⟨c.processed + 1, c.skipped, c.errors⟩ = (fs1, c1, none) :=
                hok
              intro k1 hk1
              rcases List.mem_cons.mp hk1 with h1 | h1
              · subst h1
                have hle := vesselGroups_fsLe crs tf recs ks
                  (alins fs (vesselGroupOut k1) feats)
                  ⟨c.processed + 1, c.skipped, c.errors⟩
                rw [hok1] at hle
                refine fsExists_of_fsLe hle ?_
                rw [fsExists_alins]
                simp
              · exact ih (alins fs (vesselGroupOut k) feats)
                  ⟨c.processed + 1, c.skipped, c.errors⟩ hok1 k1 h1

theorem vesselStep_fsLe (tf : String) (st : RunState) (f : InputFile) :
    fsLe st.fs (vesselStep false tf st f).fs := by
  unfold vesselStep
  cases hr : readVec f with
  | error e => exact fsLe_refl st.fs
  | ok shp =>
      show fsLe st.fs (vesselFileBody false tf st shp f.stem).fs
      unfold vesselFileBody
      by_cases hcol : tf ∈ shp.columns
      · simp only [hcol, if_true]
        cases hp : parseTimes tf shp.records with
        | error e => exact fsLe_refl st.fs
        | ok recs =>
            show fsLe st.fs (vesselDispatch (vesselProcessGroups false shp.crs
              tf recs (groupKeys recs) st.fs st.counts)).fs
            rw [vesselDispatch_fs]
            exact vesselGroups_fsLe shp.crs tf recs (groupKeys recs) st.fs
              st.counts
      · simp only [hcol, if_false]
        unfold vesselWholeFile
        cases hext : extract_date_from_filename f.stem with
        | none => exact fsLe_refl st.fs
        | some d =>
            cases hx : fsExists st.fs (vesselGroupOut d) with
            | true => simp [hx]; exact fsLe_refl st.fs
            | false =>
                simp only [hx, Bool.false_and, Bool.false_eq_true, if_false]
                exact fsLe_alins_of_not_exists _ hx

theorem vesselRun_fsLe (tf : String) (files : List InputFile) (st : RunState) :
    fsLe st.fs (process_vessel_tracks false tf files st).fs := by
  induction files generalizing st with
  | nil => exact fsLe_refl st.fs
  | cons g rest ih =>
      exact fsLe_trans (vesselStep_fsLe tf st g)
        (ih (vesselStep false tf st g))

theorem vesselStep_errors_ge (force : Bool) (tf : String) (st : RunState)
    (f : InputFile) :
    st.counts.errors ≤ (vesselStep force tf st f).counts.errors := by
  unfold vesselStep
  cases hr : readVec f with
  | error e => simp
  | ok shp =>
      show st.counts.errors ≤ (vesselFileBody force tf st shp f.stem).counts.errors
      unfold vesselFileBody
      by_cases hcol : tf ∈ shp.columns
      · simp only [hcol, if_true]
        cases hp : parseTimes tf shp.records with
        | error e => simp
        | ok recs =>
            show st.counts.errors ≤ (vesselDispatch (vesselProcessGroups force
              shp.crs tf recs (groupKeys recs) st.fs st.counts)).counts.errors
            have hc := vesselGroups_errors_const force shp.crs tf recs
              (groupKeys recs) st.fs st.counts
            rcases hgr : vesselProcessGroups force shp.crs tf recs
                (groupKeys recs) st.fs st.counts with ⟨fs1, c1, res⟩
            rw [hgr] at hc
            have hc1 : c1.errors = st.counts.errors := hc
            cases res <;> simp [vesselDispatch] <;> omega
      · simp only [hcol, if_false]
        cases hext : extract_date_from_filename f.stem with
        | none => simp [vesselWholeFile, hext]
        | some d =>
            by_cases hx : fsExists st.fs (vesselGroupOut d) = true ∧
                force = false
            · simp [vesselWholeFile, hext, hx]
            · simp [vesselWholeFile, hext, hx]

theorem vesselRun_errors_ge (force : Bool) (tf : String)
    (files : List InputFile) (st : RunState) :
    st.counts.errors ≤
      (process_vessel_tracks force tf files st).counts.errors := by
  induction files generalizing st with
  | nil => exact Nat.le_refl _
  | cons g rest ih =>
      exact Nat.le_trans (vesselStep_errors_ge force tf st g)
        (ih (vesselStep force tf st g))

theorem vesselStep_coverage (tf : String) (st : RunState) (f : InputFile)
    (hnoerr : (vesselStep false tf st f).counts.errors = st.counts.errors) :
    vesselBodyOk tf f ∧
    ∀ p, p ∈ vesselInnerOuts tf f →
      fsExists (vesselStep false tf st f).fs p = true := by
  cases hr : readVec f with
  | error e =>
      exfalso
      have hs : vesselStep false tf st f = errResult st := by
        simp [vesselStep, hr]
      rw [hs] at hnoerr
      simp [errResult] at hnoerr
  | ok shp =>
      have hs : vesselStep false tf st f = vesselFileBody false tf st shp
          f.stem := by simp [vesselStep, hr]
      by_cases hcol : tf ∈ shp.columns
      · cases hp : parseTimes tf shp.records with
        | error e =>
            exfalso
            have hs1 : vesselFileBody false tf st shp f.stem = errResult st := by
              simp [vesselFileBody, hcol, hp]
            rw [hs, hs1] at hnoerr
            simp [errResult] at hnoerr
        | ok recs =>
            have hs1 : vesselFileBody false tf st shp f.stem =
                vesselDispatch (vesselProcessGroups false shp.crs tf recs
                  (groupKeys recs) st.fs st.counts) := by
              simp [vesselFileBody, hcol, hp]
            have hec := vesselGroups_errors_const false shp.crs tf recs
              (groupKeys recs) st.fs st.counts
            rcases hgr : vesselProcessGroups false shp.crs tf recs
                (groupKeys recs) st.fs st.counts with ⟨fs1, c1, res⟩
            rw [hgr] at hs1 hec
            have hec1 : c1.errors = st.counts.errors := hec
            cases res with
            | some e =>
                exfalso
                rw [hs, hs1] at hnoerr
                simp [vesselDispatch] at hnoerr
                omega
            | none =>
                constructor
                · exact ⟨shp, hr, fun _ => ⟨recs, hp⟩,
                    fun hc => absurd hcol hc⟩
                · intro p hp1
                  rw [hs, hs1]
                  simp only [vesselDispatch]
                  unfold vesselInnerOuts at hp1
                  rw [hr] at hp1
                  simp only [hcol, if_true, hp] at hp1
                  rw [List.mem_map] at hp1
                  obtain ⟨k, hk, hpk⟩ := hp1
                  rw [← hpk]
                  exact vesselGroups_coverage shp.crs tf recs (groupKeys recs)
                    st.fs fs1 st.counts c1 hgr k hk
      · cases hext : extract_date_from_filename f.stem with
        | none =>
            exfalso
            have hs1 : vesselFileBody false tf st shp f.stem = errResult st := by
              simp [vesselFileBody, vesselWholeFile, hcol, hext]
            rw [hs, hs1] at hnoerr
            simp [errResult] at hnoerr
        | some d =>
            constructor
            · exact ⟨shp, hr, fun hc => absurd hc hcol, fun _ => ⟨d, hext⟩⟩
            · intro p hp1
              unfold vesselInnerOuts at hp1
              rw [hr] at hp1
              simp only [hcol, if_false, hext] at hp1
              rcases List.mem_singleton.mp hp1 with h1
              subst h1
              rw [hs]
              cases hx : fsExists st.fs (vesselGroupOut d) with
              | true =>
                  have hs1 : vesselFileBody false tf st shp f.stem =
                      ⟨st.fs, ⟨st.counts.processed, st.counts.skipped + 1,
                        st.counts.errors⟩⟩ := by
                    simp [vesselFileBody, vesselWholeFile, hcol, hext, hx]
                  rw [hs1]
                  exact hx
              | false =>
                  have hs1 : vesselFileBody false tf st shp f.stem =
                      ⟨alins st.fs (vesselGroupOut d)
                        (shp.records.map (rawFeature shp.crs)),
                       ⟨st.counts.processed + 1, st.counts.skipped,
                        st.counts.errors⟩⟩ := by
                    simp [vesselFileBody, vesselWholeFile, hcol, hext, hx]
                  rw [hs1]
                  show fsExists (alins st.fs (vesselGroupOut d)
                    (shp.records.map (rawFeature shp.crs))) (vesselGroupOut d)
                    = true
                  rw [fsExists_alins]
                  simp

theorem vesselStep_rerun (tf : String) (fs : FS) (c : Counts) (f : InputFile)
    (hbody : vesselBodyOk tf f)
    (hcov : ∀ p, p ∈ vesselInnerOuts tf f → fsExists fs p = true) :
    ∃ m, vesselStep false tf ⟨fs, c⟩ f =
      ⟨fs, ⟨c.processed, c.skipped + m, c.errors⟩⟩ := by
  obtain ⟨shp, hr, hparse, hnofield⟩ := hbody
  have hs : vesselStep false tf ⟨fs, c⟩ f =
      vesselFileBody false tf ⟨fs, c⟩ shp f.stem := by simp [vesselStep, hr]
  by_cases hcol : tf ∈ shp.columns
  · obtain ⟨recs, hp⟩ := hparse hcol
    have hall : ∀ k, k ∈ groupKeys recs →
        fsExists fs (vesselGroupOut k) = true := by
      intro k hk
      apply hcov
      unfold vesselInnerOuts
      rw [hr]
      simp only [hcol, if_true, hp]
      exact List.mem_map_of_mem vesselGroupOut hk
    have hgr := vesselGroups_all_exist shp.crs tf recs (groupKeys recs) fs c
      hall
    refine ⟨(groupKeys recs).length, ?_⟩
    rw [hs]
    simp [vesselFileBody, hcol, hp, hgr, vesselDispatch]
  · obtain ⟨d, hext⟩ := hnofield hcol
    have hx : fsExists fs (vesselGroupOut d) = true := by
      apply hcov
      unfold vesselInnerOuts
      rw [hr]
      simp [hcol, hext]
    refine ⟨1, ?_⟩
    rw [hs]
    simp [vesselFileBody, vesselWholeFile, hcol, hext, hx]

theorem vesselRun_ready (tf : String) (files : List InputFile) (st : RunState)
    (hE : (process_vessel_tracks false tf files st).counts.errors
      = st.counts.errors) :
    ∀ f, f ∈ files →
      vesselBodyOk tf f ∧
      ∀ p, p ∈ vesselInnerOuts tf f →
        fsExists (process_vessel_tracks false tf files st).fs p = true := by
  induction files generalizing st with
  | nil => intro f h; cases h
  | cons g rest ih =>
      have hrun : process_vessel_tracks false tf (g :: rest) st =
          process_vessel_tracks false tf rest (vesselStep false tf st g) := rfl
      have e1 := vesselStep_errors_ge false tf st g
      have e2 := vesselRun_errors_ge false tf rest (vesselStep false tf st g)
      rw [hrun] at hE
      have hstep : (vesselStep false tf st g).counts.errors
          = st.counts.errors := by omega
      have hrest : (process_vessel_tracks false tf rest
          (vesselStep false tf st g)).counts.errors
          = (vesselStep false tf st g).counts.errors := by omega
      intro f hf
      rcases List.mem_cons.mp hf with hfg | hfr
      · subst hfg
        have hcov := vesselStep_coverage tf st f hstep
        have hfsle := vesselRun_fsLe tf rest (vesselStep false tf st f)
        rw [hrun]
        exact ⟨hcov.1, fun p hp => fsExists_of_fsLe hfsle (hcov.2 p hp)⟩
      · rw [hrun]
        exact ih (vesselStep false tf st g) hrest f hfr

theorem vesselRun_rerun (tf : String) (R : FS) (files : List InputFile)
    (c : Counts)
    (hready : ∀ f, f ∈ files →
      vesselBodyOk tf f ∧
      ∀ p, p ∈ vesselInnerOuts tf f → fsExists R p = true) :
    (process_vessel_tracks false tf files ⟨R, c⟩).fs = R ∧
    (process_vessel_tracks false tf files ⟨R, c⟩).counts.processed
      = c.processed ∧
    (process_vessel_tracks false tf files ⟨R, c⟩).counts.errors = c.errors := by
  induction files generalizing c with
  | nil => exact ⟨rfl, rfl, rfl⟩
  | cons g rest ih =>
      have hready1 : ∀ f, f ∈ rest →
          vesselBodyOk tf f ∧
          ∀ p, p ∈ vesselInnerOuts tf f → fsExists R p = true :=
        fun f hf => hready f (List.mem_cons_of_mem g hf)
      have hg := hready g (List.mem_cons_self g rest)
      obtain ⟨m, hstep⟩ := vesselStep_rerun tf R c g hg.1 hg.2
      have hrun : process_vessel_tracks false tf (g :: rest) ⟨R, c⟩ =
          process_vessel_tracks false tf rest
            (vesselStep false tf ⟨R, c⟩ g) := rfl
      rw [hrun, hstep]
      exact ih ⟨c.processed, c.skipped + m, c.errors⟩ hready1

/-- C2 counterexample: running the transit pipeline twice over one shapefile
with a valid temporal field (force false): both runs count the file as
processed — on the second run nothing is rewritten (the artifacts are
identical) yet the file lands in the processed count, not the skipped count,
because reuse is detected only by the inner per-date gate while the driver
gate checks the differently named filename-year artifact. -/
theorem idempotent_rerun_counterexample :
    (process_transit_counts false "2025" "BaseDateTime" [fileTransit1]
        ⟨(process_transit_counts false "2025" "BaseDateTime" [fileTransit1]
            ⟨[], ⟨0, 0, 0⟩⟩).fs, ⟨0, 0, 0⟩⟩).counts = ⟨1, 0, 0⟩ ∧
    (process_transit_counts false "2025" "BaseDateTime" [fileTransit1]
        ⟨(process_transit_counts false "2025" "BaseDateTime" [fileTransit1]
            ⟨[], ⟨0, 0, 0⟩⟩).fs, ⟨0, 0, 0⟩⟩).fs =
      (process_transit_counts false "2025" "BaseDateTime" [fileTransit1]
        ⟨[], ⟨0, 0, 0⟩⟩).fs := by
  decide

/-- C2 (amended): with force false, after an error-free first run a second run
over the same inputs writes nothing — every output artifact is identical — and
reports no errors; but its counters classify by the driver gate only: a file
is counted skipped iff its driver-gate artifact exists, and every other
supported file is counted processed although its reuse happened silently at
the inner gates. A second vessel-tracks run likewise changes nothing, reports
no errors, and counts nothing processed (its skips are counted per date
group). -/
theorem idempotent_rerun_amended :
    (∀ (ny tf : String) (files : List InputFile) (fs0 : FS) (c0 : Counts),
      (process_transit_counts false ny tf files ⟨fs0, c0⟩).counts.errors
          = c0.errors →
      process_transit_counts false ny tf files
          ⟨(process_transit_counts false ny tf files ⟨fs0, c0⟩).fs,
           ⟨0, 0, 0⟩⟩ =
        ⟨(process_transit_counts false ny tf files ⟨fs0, c0⟩).fs,
         ⟨(files.filter (fun f => transitSupported f &&
            !transitGateHit
              (process_transit_counts false ny tf files ⟨fs0, c0⟩).fs
              false f)).length,
          (files.filter (fun f => transitGateHit
              (process_transit_counts false ny tf files ⟨fs0, c0⟩).fs
              false f)).length,
          0⟩⟩) ∧
    (∀ (tf : String) (files : List InputFile) (fs0 : FS) (c0 : Counts),
      (process_vessel_tracks false tf files ⟨fs0, c0⟩).counts.errors
          = c0.errors →
      (process_vessel_tracks false tf files
          ⟨(process_vessel_tracks false tf files ⟨fs0, c0⟩).fs, ⟨0, 0, 0⟩⟩).fs
        = (process_vessel_tracks false tf files ⟨fs0, c0⟩).fs ∧
      (process_vessel_tracks false tf files
          ⟨(process_vessel_tracks false tf files ⟨fs0, c0⟩).fs,
           ⟨0, 0, 0⟩⟩).counts.processed = 0 ∧
      (process_vessel_tracks false tf files
          ⟨(process_vessel_tracks false tf files ⟨fs0, c0⟩).fs,
           ⟨0, 0, 0⟩⟩).counts.errors = 0) := by
  constructor
  · intro ny tf files fs0 c0 hE
    have hready := transitRun_ready ny tf files ⟨fs0, c0⟩ hE
    have hrr := transitRun_rerun ny tf
      (process_transit_counts false ny tf files ⟨fs0, c0⟩).fs files
      ⟨0, 0, 0⟩ hready
    simpa using hrr
  · intro tf files fs0 c0 hE
    have hready := vesselRun_ready tf files ⟨fs0, c0⟩ hE
    exact vesselRun_rerun tf
      (process_vessel_tracks false tf files ⟨fs0, c0⟩).fs files
      ⟨0, 0, 0⟩ hready

/-- C2 witness: concrete double runs of each pipeline. -/
theorem idempotent_rerun_amended_witness :
    process_transit_counts false "2025" "BaseDateTime" [fileCounts2]
        ⟨(process_transit_counts false "2025" "BaseDateTime" [fileCounts2]
            ⟨[], ⟨0, 0, 0⟩⟩).fs, ⟨0, 0, 0⟩⟩ =
      ⟨(process_transit_counts false "2025" "BaseDateTime" [fileCounts2]
          ⟨[], ⟨0, 0, 0⟩⟩).fs,
       ⟨([fileCounts2].filter (fun f => transitSupported f &&
          !transitGateHit
            (process_transit_counts false "2025" "BaseDateTime" [fileCounts2]
              ⟨[], ⟨0, 0, 0⟩⟩).fs false f)).length,
        ([fileCounts2].filter (fun f => transitGateHit
            (process_transit_counts false "2025" "BaseDateTime" [fileCounts2]
              ⟨[], ⟨0, 0, 0⟩⟩).fs false f)).length,
        0⟩⟩ ∧
    (process_vessel_tracks false "TIMESTAMP" [fileTracks2]
        ⟨(process_vessel_tracks false "TIMESTAMP" [fileTracks2]
            ⟨[], ⟨0, 0, 0⟩⟩).fs, ⟨0, 0, 0⟩⟩).counts.processed = 0 :=
  ⟨idempotent_rerun_amended.1 "2025" "BaseDateTime" [fileCounts2] []
     ⟨0, 0, 0⟩ (by decide),
   (idempotent_rerun_amended.2 "TIMESTAMP" [fileTracks2] [] ⟨0, 0, 0⟩
     (by decide)).2.1⟩

/-- C1 counterexample: with the force flag set, processing a transit-counts
shapefile over a directory that already holds the (stale, empty) 2023-05-01
artifact leaves that artifact untouched — the group gate skips on bare
existence, ignoring force — although the same step from an empty directory
writes one feature there. The claim's "when force is true an existing
artifact is reprocessed and rewritten" fails. -/
theorem vector_reuse_gate_counterexample :
    (transitStep true "2025" "BaseDateTime" ⟨fsStale, ⟨0, 0, 0⟩⟩ fileTransit1).fs
      = fsStale ∧
    alook (transitStep true "2025" "BaseDateTime" ⟨fsStale, ⟨0, 0, 0⟩⟩
        fileTransit1).fs "transit_counts_2023-05-01.geojson" = some [] ∧
    (alook (transitStep true "2025" "BaseDateTime" ⟨[], ⟨0, 0, 0⟩⟩
        fileTransit1).fs "transit_counts_2023-05-01.geojson").map List.length
      = some 1 := by
  decide

/-- C1 (amended): vessel-tracks artifacts honor the idempotency contract —
reuse iff the target exists and force is false, and a forced or fresh group is
rewritten; but transit-counts artifacts below the driver gate ignore force
entirely: a per-date shapefile group is skipped whenever its target exists
(the group processor does not even receive the flag), and a geotiff artifact
is skipped whenever its target exists. -/
theorem vector_reuse_gate_amended :
    (∀ (crs : Option String) (tf k : String) (grp : List (DateT × VRecord))
        (fs : FS),
      (fsExists fs (transitGroupOut k) = true →
        transitProcessGroup crs tf k grp fs = (fs, none)) ∧
      (fsExists fs (transitGroupOut k) = false →
        ∀ feats, grp.mapM (fun p => buildTransitFeature crs tf k p.2) = .ok feats →
          transitProcessGroup crs tf k grp fs =
            (alins fs (transitGroupOut k) feats, none))) ∧
    (∀ (ny : String) (ds : RasterDataset) (stem name : String) (fs : FS),
      fsExists fs (geotiffOut ((extract_date_from_filename stem).getD ny) stem)
          = true →
      process_geotiff ny ds stem name fs = (fs, none)) ∧
    (∀ (force : Bool) (crs : Option String) (tf k : String)
        (grp : List (DateT × VRecord)) (fs : FS) (c : Counts),
      (fsExists fs (vesselGroupOut k) = true → force = false →
        vesselProcessGroup force crs tf k grp fs c =
          (fs, ⟨c.processed, c.skipped + 1, c.errors⟩, none)) ∧
      (∀ feats, grp.mapM (buildVesselFeature crs tf k) = .ok feats →
        (force = true ∨ fsExists fs (vesselGroupOut k) = false) →
        vesselProcessGroup force crs tf k grp fs c =
          (alins fs (vesselGroupOut k) feats,
           ⟨c.processed + 1, c.skipped, c.errors⟩, none))) := by
  refine ⟨?_, ?_, ?_⟩
  · intro crs tf k grp fs
    constructor
    · intro hex
      simp [transitProcessGroup, hex]
    · intro hex feats hfeats
      simp only [transitProcessGroup, hex, Bool.false_eq_true, if_false]
      rw [hfeats]
  · intro ny ds stem name fs hex
    unfold process_geotiff
    simp [hex]
  · intro force crs tf k grp fs c
    constructor
    · intro hex hforce
      subst hforce
      simp [vesselProcessGroup, hex]
    · intro feats hfeats hcase
      rcases hcase with hf | hex
      · subst hf
        simp only [vesselProcessGroup, Bool.not_true, Bool.and_false,
          Bool.false_eq_true, if_false]
        rw [hfeats]
      · simp only [vesselProcessGroup, hex, Bool.false_and, Bool.false_eq_true,
          if_false]
        rw [hfeats]

/-- C1 witness: concrete exercises of each amended clause — an existing
transit group target is skipped, an existing geotiff target is skipped, an
existing vessel target is skipped without force and rewritten with force. -/
theorem vector_reuse_gate_amended_witness :
    transitProcessGroup (some "EPSG:4326") "BaseDateTime" "2023-05-01" []
        fsStale = (fsStale, none) ∧
    process_geotiff "2025" rasterZero "a2023"
        "a2023.tif" [(geotiffOut "2023" "a2023", [])] =
      ([(geotiffOut "2023" "a2023", [])], none) ∧
    vesselProcessGroup false none "TIMESTAMP" "2023"
        [] [(vesselGroupOut "2023", [])] ⟨0, 0, 0⟩ =
      ([(vesselGroupOut "2023", [])], ⟨0, 1, 0⟩, none) ∧
    vesselProcessGroup true none "TIMESTAMP" "2023"
        [] [(vesselGroupOut "2023", [])] ⟨0, 0, 0⟩ =
      (alins [(vesselGroupOut "2023", [])] (vesselGroupOut "2023") [],
       ⟨1, 0, 0⟩, none) :=
  ⟨(vector_reuse_gate_amended.1 (some "EPSG:4326") "BaseDateTime" "2023-05-01"
      [] fsStale).1 (by decide),
   vector_reuse_gate_amended.2.1 "2025" rasterZero "a2023" "a2023.tif"
     [(geotiffOut "2023" "a2023", [])] (by decide),
   (vector_reuse_gate_amended.2.2 false none "TIMESTAMP" "2023" []
      [(vesselGroupOut "2023", [])] ⟨0, 0, 0⟩).1 (by decide) rfl,
   (vector_reuse_gate_amended.2.2 true none "TIMESTAMP" "2023" []
      [(vesselGroupOut "2023", [])] ⟨0, 0, 0⟩).2 [] rfl (Or.inl rfl)⟩

/-- C9: an input file whose extension is neither .shp nor .tif is skipped by
the driver without touching any counter or artifact, and the run continues
with the remaining files; no exception escapes the loop for it. -/
theorem unsupported_extension_is_noop (force : Bool) (nowYear timeField : String)
    (st : RunState) (f : InputFile) (rest : List InputFile)
    (h1 : ¬ lowerExt f = ".shp") (h2 : ¬ lowerExt f = ".tif") :
    transitStep force nowYear timeField st f = st ∧
    process_transit_counts force nowYear timeField (f :: rest) st =
      process_transit_counts force nowYear timeField rest st := by
  have hstep : transitStep force nowYear timeField st f = st := by
    simp [transitStep, transitGateHit, transitGatePath, h1, h2]
  exact ⟨hstep, by simp [process_transit_counts, hstep]⟩

/-- C8: for a readable raster all of whose cells are non-positive, the sampler
produces zero point features and process_geotiff still writes the output
artifact as an empty feature collection — the target file exists afterwards,
holding no features — and raises no error. -/
theorem raster_nonpositive_writes_empty (ny : String) (ds : RasterDataset)
    (stem name : String) (fs : FS)
    (hread : ds.readable = true)
    (hvals : ∀ y x, y < ds.height → x < ds.width → ds.band y x ≤ 0)
    (hout : fsExists fs
      (geotiffOut ((extract_date_from_filename stem).getD ny) stem) = false) :
    primaryFeatures ds 10 ((extract_date_from_filename stem).getD ny) name = [] ∧
    (process_geotiff ny ds stem name fs).2 = none ∧
    alook (process_geotiff ny ds stem name fs).1
      (geotiffOut ((extract_date_from_filename stem).getD ny) stem) = some [] := by
  have hpf := primaryFeatures_nil ds 10 ((extract_date_from_filename stem).getD ny)
    name hvals
  have hprim : primaryRasterPath ds ((extract_date_from_filename stem).getD ny)
      name (geotiffOut ((extract_date_from_filename stem).getD ny) stem) fs =
      .ok (alins fs (geotiffOut ((extract_date_from_filename stem).getD ny) stem)
        []) := by
    unfold primaryRasterPath
    rw [hread, hpf]
    simp
  refine ⟨hpf, ?_⟩
  unfold process_geotiff
  simp only [hout, Bool.false_eq_true, if_false, hprim, tryWithFallback]
  simp [alook_alins]

/-- C8 witness: the all-zero 1x1 raster yields an existing, empty artifact. -/
theorem raster_nonpositive_writes_empty_witness :
    primaryFeatures rasterZero 10
        ((extract_date_from_filename "z").getD "2025") "z.tif" = [] ∧
    (process_geotiff "2025" rasterZero "z" "z.tif" []).2 = none ∧
    alook (process_geotiff "2025" rasterZero "z" "z.tif" []).1
      (geotiffOut ((extract_date_from_filename "z").getD "2025") "z") = some [] :=
  raster_nonpositive_writes_empty "2025" rasterZero "z" "z.tif" [] rfl
    (fun _ _ _ _ => Int.le_refl 0) (by decide)

/-- C4: when the primary raster path fails, the fallback is invoked exactly
once and the file's outcome is the fallback's outcome; when the primary
succeeds the fallback is not invoked. For a fresh output path, process_geotiff
raises iff both paths fail; at the driver, a raised error only increments the
error count while a recovered or successful file is counted processed. -/
theorem raster_fallback_activation :
    (∀ (p : Except String FS) (fb : Unit → Except String FS),
      (exIsOk p = false →
        (tryWithFallback p fb).2 = 1 ∧ (tryWithFallback p fb).1 = fb ()) ∧
      (exIsOk p = true →
        (tryWithFallback p fb).2 = 0 ∧ (tryWithFallback p fb).1 = p)) ∧
    (∀ (ny : String) (ds : RasterDataset) (stem name : String) (fs : FS),
      fsExists fs (geotiffOut ((extract_date_from_filename stem).getD ny) stem)
          = false →
      ((process_geotiff ny ds stem name fs).2.isSome = true ↔
        (exIsOk (primaryRasterPath ds ((extract_date_from_filename stem).getD ny)
            name (geotiffOut ((extract_date_from_filename stem).getD ny) stem) fs)
          = false ∧
         exIsOk (convert_tiff_to_point_cloud ds
            ((extract_date_from_filename stem).getD ny) name
            (geotiffOut ((extract_date_from_filename stem).getD ny) stem) fs)
          = false))) ∧
    (∀ (force : Bool) (ny tf : String) (st : RunState) (f : InputFile)
        (ds : RasterDataset) (fs1 : FS),
      transitGateHit st.fs force f = false →
      lowerExt f = ".tif" →
      readRas f = .ok ds →
      (∀ e, process_geotiff ny ds f.stem (fileName f) st.fs = (fs1, some e) →
        transitStep force ny tf st f =
          ⟨fs1, ⟨st.counts.processed, st.counts.skipped, st.counts.errors + 1⟩⟩) ∧
      (process_geotiff ny ds f.stem (fileName f) st.fs = (fs1, none) →
        transitStep force ny tf st f =
          ⟨fs1, ⟨st.counts.processed + 1, st.counts.skipped, st.counts.errors⟩⟩)) := by
  refine ⟨?_, ?_, ?_⟩
  · intro p fb
    constructor
    · intro hp
      obtain ⟨msg, hmsg⟩ := exIsOk_false hp
      subst hmsg
      cases hfb : fb () with
      | ok a => simp [tryWithFallback, hfb]
      | error e2 => simp [tryWithFallback, hfb]
    · intro hp
      obtain ⟨a, ha⟩ := exIsOk_true hp
      subst ha
      simp [tryWithFallback]
  · intro ny ds stem name fs hout
    unfold process_geotiff
    simp only [hout]
    cases hp : primaryRasterPath ds ((extract_date_from_filename stem).getD ny)
        name (geotiffOut ((extract_date_from_filename stem).getD ny) stem) fs with
    | ok fs1 => simp [tryWithFallback, hp, exIsOk]
    | error e =>
        cases hf : convert_tiff_to_point_cloud ds
            ((extract_date_from_filename stem).getD ny) name
            (geotiffOut ((extract_date_from_filename stem).getD ny) stem) fs with
        | ok fs1 => simp [tryWithFallback, hp, hf, exIsOk]
        | error e2 => simp [tryWithFallback, hp, hf, exIsOk]
  · intro force ny tf st f ds fs1 hgate hext hread
    have hshp : ¬ lowerExt f = ".shp" := by rw [hext]; decide
    constructor
    · intro e hpg
      simp [transitStep, hgate, hshp, hext, hread, hpg]
    · intro hpg
      simp [transitStep, hgate, hshp, hext, hread, hpg]

/-- C4 witness: concrete instances — a failing primary with failing fallback
errors the file; a failing primary with a working export is recovered and
counted processed. -/
theorem raster_fallback_activation_witness :
    ((tryWithFallback (.error "boom") (fun _ => .ok [])).2 = 1 ∧
      (tryWithFallback (.error "boom") (fun _ => .ok [])).1 = .ok []) ∧
    ((process_geotiff "2025" rasterBothFail "b7777" "b7777.tif" []).2.isSome = true ↔
      (exIsOk (primaryRasterPath rasterBothFail "7777"
          "b7777.tif" (geotiffOut "7777" "b7777") []) = false ∧
       exIsOk (convert_tiff_to_point_cloud rasterBothFail "7777"
          "b7777.tif" (geotiffOut "7777" "b7777") []) = false)) ∧
    transitStep false "2025" "BaseDateTime" ⟨[], ⟨0, 0, 0⟩⟩ fileBadTif =
      ⟨[], ⟨0, 0, 1⟩⟩ ∧
    transitStep false "2025" "BaseDateTime" ⟨[], ⟨0, 0, 0⟩⟩ fileFbTif =
      ⟨(alins [] (geotiffOut "7777" "c7777")
          (fallbackFeatures [(1/2, 1/2, 1)] "7777" "c7777.tif")), ⟨1, 0, 0⟩⟩ := by
  refine ⟨(raster_fallback_activation.1 (.error "boom") (fun _ => .ok [])).1 rfl,
    ?_, ?_, ?_⟩
  · exact raster_fallback_activation.2.1 "2025" rasterBothFail "b7777"
      "b7777.tif" [] (by decide)
  · exact (raster_fallback_activation.2.2 false "2025" "BaseDateTime"
      ⟨[], ⟨0, 0, 0⟩⟩ fileBadTif rasterBothFail [] (by decide) (by decide)
      rfl).1 "CSV file does not contain X and Y columns" (by decide)
  · exact (raster_fallback_activation.2.2 false "2025" "BaseDateTime"
      ⟨[], ⟨0, 0, 0⟩⟩ fileFbTif rasterFallbackOk
      (alins [] (geotiffOut "7777" "c7777")
        (fallbackFeatures [(1/2, 1/2, 1)] "7777" "c7777.tif"))
      (by decide) (by decide) rfl).2 rfl

/-- C9 witness: a .txt file in front of an empty run is a no-op. -/
theorem unsupported_extension_is_noop_witness :
    transitStep false "2025" "BaseDateTime" ⟨[], ⟨0, 0, 0⟩⟩
        ⟨"notes", ".txt", .other⟩ = ⟨[], ⟨0, 0, 0⟩⟩ ∧
    process_transit_counts false "2025" "BaseDateTime"
        [⟨"notes", ".txt", .other⟩] ⟨[], ⟨0, 0, 0⟩⟩ =
      process_transit_counts false "2025" "BaseDateTime" [] ⟨[], ⟨0, 0, 0⟩⟩ :=
  unsupported_extension_is_noop false "2025" "BaseDateTime" ⟨[], ⟨0, 0, 0⟩⟩
    ⟨"notes", ".txt", .other⟩ [] (by decide) (by decide)
